import Mathlib

/-!
# Verification of the decisionpoint cashflow pivot engine and task aggregator

Shallow embedding of the data-transformation logic of the repository:

* `src/hooks/use-cashflow-analysis.ts` — `useCashflowAnalysis` (fetch routine),
  `transformCashflowData` (pivot engine) and `calculateSummary` (summary calculator);
* `src/components/tasks/tasks-category-view.tsx` — the completion merge in
  `fetchTasksAndFiles` and the grouping/sorting in `processTasksAndFiles`.

JavaScript objects used as dictionaries are modelled as insertion-ordered
association lists (`List (κ × ν)`): property read is first-match lookup
(`jget`), property write replaces the first matching entry in place or appends
(`jset`), matching the enumeration order of string/number keys as the code
uses them.  Monetary amounts are modelled as exact integers (the spec imposes
no rounding rule: "amounts are signed; preserve source numeric precision").
Years are natural numbers.  JavaScript truthiness tests that appear in the
source are modelled literally (a number is falsy exactly when it is 0, an
absent property is falsy, a string is falsy exactly when it is empty).
-/

set_option maxHeartbeats 1600000

namespace DecisionPoint

/-! ## Association-list model of JavaScript object records -/

/-- Property read `m[k]`: value at the first entry whose key is `k`. -/
def jget {κ ν : Type} [DecidableEq κ] : List (κ × ν) → κ → Option ν
  | [], _ => none
  | (k0, v) :: rest, k => if k0 = k then some v else jget rest k

/-- Property write `m[k] = v`: replace the first entry with key `k` in place,
or append a new entry when the key is absent. -/
def jset {κ ν : Type} [DecidableEq κ] : List (κ × ν) → κ → ν → List (κ × ν)
  | [], k, v => [(k, v)]
  | (k0, v0) :: rest, k, v =>
      if k0 = k then (k0, v) :: rest else (k0, v0) :: jset rest k v

/-- Keys of an object, in enumeration order. -/
def keys {κ ν : Type} (m : List (κ × ν)) : List κ := m.map Prod.fst

/-- Sum of all values of an object with integer values. -/
def sumVals {κ : Type} (m : List (κ × Int)) : Int := (m.map Prod.snd).sum

/-! ## JavaScript array sort, default comparator and `Set` deduplication -/

/-- UTF-16 code-unit `<` on strings as lists of characters, as used by the
default comparator of `Array.prototype.sort`. -/
def strLtB : List Char → List Char → Bool
  | [], [] => false
  | [], _ :: _ => true
  | _ :: _, [] => false
  | c :: cs, d :: ds =>
      if c.toNat < d.toNat then true
      else if d.toNat < c.toNat then false
      else strLtB cs ds

/-- String `a` sorts no later than string `b` under the default comparator. -/
def strLeB (a b : String) : Bool := ! strLtB b.data a.data

/-- A concrete three-way string comparator derived from the code-unit
order, used to instantiate the abstract locale-aware comparison. -/
def cmpStd (a b : String) : Int :=
  if strLtB a.data b.data then -1 else if strLtB b.data a.data then 1 else 0

/-- The default comparator of `Array.prototype.sort` applied to numbers:
both are converted to strings and compared by UTF-16 code units.  This is
what `[...new Set(records.map(r => r.year))].sort()` uses. -/
def jsNumLe (a b : Nat) : Bool := ! strLtB (toString b).data (toString a).data

/-- Stable insertion of `x` into `l` with respect to the comparator `le`. -/
def insertLe {α : Type} (le : α → α → Bool) (x : α) : List α → List α
  | [] => [x]
  | y :: l => if le x y then x :: y :: l else y :: insertLe le x l

/-- Sort `l` by the comparator `le`.  `Array.prototype.sort` guarantees a
stably sorted result for a consistent comparator; insertion sort realises
that contract. -/
def insSort {α : Type} (le : α → α → Bool) : List α → List α
  | [] => []
  | x :: l => insertLe le x (insSort le l)

/-- Model of `Set` deduplication keeping the first occurrence of each element, as
`new Set(xs)` iterates in insertion order. -/
def dedupAux {α : Type} [DecidableEq α] (seen : List α) : List α → List α
  | [] => []
  | x :: l => if x ∈ seen then dedupAux seen l else x :: dedupAux (x :: seen) l

/-- Model of `[...new Set(xs)]`. -/
def dedupFirst {α : Type} [DecidableEq α] (l : List α) : List α := dedupAux [] l

namespace Cashflow

/-! ## Data model (`src/hooks/use-cashflow-analysis.ts`, `@/types/cashflow`) -/

/-- A raw cashflow line record. -/
structure CashflowRecord where
  id : String
  source_file_id : String
  category_id : String
  year : Nat
  amount : Int
deriving DecidableEq

/-- A cashflow category definition. -/
structure Category where
  id : String
  name : String
  type : String
deriving DecidableEq

/-- Metadata of an uploaded file. -/
structure UploadedFile where
  id : String
  filename : String
  status : String
  created_at : String
  processed_at : Option String
  is_deleted : Option Bool
deriving DecidableEq

/-- Summary metrics produced by `calculateSummary`. -/
structure CashflowSummary where
  incomeByYear : List (Nat × Int)
  expensesByYear : List (Nat × Int)
  netByYear : List (Nat × Int)
  totalIncome : Int
  totalExpenses : Int
  totalNet : Int
deriving DecidableEq

/-- The pivoted analysis structure produced by `transformCashflowData`. -/
structure PivotedCashflow where
  byCategory : List (String × List (Nat × Int))
  byYear : List (Nat × List (String × Int))
  categories : List (String × Category)
  years : List Nat
  categoryNames : List String
  summary : CashflowSummary
  records : List CashflowRecord
  file : Option UploadedFile
deriving DecidableEq

/-! ## `calculateSummary` -/

/-- Accumulator state of the record loop in `calculateSummary`. -/
structure SState where
  incomeByYear : List (Nat × Int)
  expensesByYear : List (Nat × Int)
  totalIncome : Int
  totalExpenses : Int
deriving DecidableEq

/-- Model of `years.forEach(y => { m[y] = 0 })`. -/
def initZero (years : List Nat) : List (Nat × Int) :=
  years.foldl (fun m y => jset m y 0) []

/-- One iteration of the record loop in `calculateSummary`:
resolve the category, skip when unresolved, and accumulate the amount into
the income or expense aggregates according to `category.type`; any other
type (debt, other) is not accumulated. -/
def sumRecord (categories : List (String × Category)) (st : SState)
    (record : CashflowRecord) : SState :=
  match jget categories record.category_id with
  | none => st
  | some category =>
      if category.type = "income" then
        { st with
          incomeByYear :=
            jset st.incomeByYear record.year
              (((jget st.incomeByYear record.year).getD 0) + record.amount),
          totalIncome := st.totalIncome + record.amount }
      else if category.type = "expense" then
        { st with
          expensesByYear :=
            jset st.expensesByYear record.year
              (((jget st.expensesByYear record.year).getD 0) + record.amount),
          totalExpenses := st.totalExpenses + record.amount }
      else st

/-- The final loop of `calculateSummary`:
`years.forEach(y => { netByYear[y] = incomeByYear[y] - expensesByYear[y] })`,
starting from the zero-initialised net map. -/
def netFold (inc exps : List (Nat × Int)) (years : List Nat) :
    List (Nat × Int) :=
  years.foldl
    (fun m y => jset m y (((jget inc y).getD 0) - ((jget exps y).getD 0)))
    (initZero years)

/-- Model of `calculateSummary(records, categories, years)`.  The per-year maps are
initialised to 0 for every year in `years`; after the record loop,
`netByYear[year] = incomeByYear[year] - expensesByYear[year]` is written for
every year in `years` (those cells are always present, so the `getD 0`
default used to totalise the JavaScript property read never fires). -/
def calculateSummary (records : List CashflowRecord)
    (categories : List (String × Category)) (years : List Nat) :
    CashflowSummary :=
  let st0 : SState := ⟨initZero years, initZero years, 0, 0⟩
  let st := records.foldl (sumRecord categories) st0
  let netByYear := netFold st.incomeByYear st.expensesByYear years
  { incomeByYear := st.incomeByYear
    expensesByYear := st.expensesByYear
    netByYear := netByYear
    totalIncome := st.totalIncome
    totalExpenses := st.totalExpenses
    totalNet := st.totalIncome - st.totalExpenses }

/-! ## `transformCashflowData` -/

/-- Model of `categories.forEach(c => { categoryMap[c.id] = c })`. -/
def mkCategoryMap (categories : List Category) : List (String × Category) :=
  categories.foldl (fun m c => jset m c.id c) []

/-- Model of `[...new Set(records.map(r => r.year))].sort()` — note the default
(string-comparing) sort. -/
def jsYears (records : List CashflowRecord) : List Nat :=
  insSort jsNumLe (dedupFirst (records.map (fun r => r.year)))

/-- Model of `categoryNames.add(name)` on an insertion-ordered `Set`. -/
def setAdd (s : List String) (x : String) : List String :=
  if x ∈ s then s else s ++ [x]

/-- The cell update pattern
`if (m[k]) { m[k] += amount } else { m[k] = amount }`:
a present, non-zero (truthy) cell is incremented, otherwise the cell is
assigned the amount. -/
def bump {κ : Type} [DecidableEq κ] (m : List (κ × Int)) (k : κ) (a : Int) :
    List (κ × Int) :=
  match jget m k with
  | some v => if v ≠ 0 then jset m k (v + a) else jset m k a
  | none => jset m k a

/-- State mutated by the record loop of `transformCashflowData`. -/
structure TState where
  categoryNames : List String
  byCategory : List (String × List (Nat × Int))
  byYear : List (Nat × List (String × Int))
deriving DecidableEq

/-- Creation of a missing inner object:
`if (!byCategory[categoryName]) byCategory[categoryName] = {}` — objects are
always truthy, so the guard tests key absence. -/
def ensureKey (bc : List (String × List (Nat × Int))) (name : String) :
    List (String × List (Nat × Int)) :=
  match jget bc name with
  | none => jset bc name []
  | some _ => bc

/-- One iteration of `records.forEach` in `transformCashflowData`: resolve
the category (skip the record when unresolved), add its name to the name
set, create the `byCategory[name]` object when absent, and accumulate the
amount into both `byCategory[name][year]` and `byYear[year][name]`.  When
`byYear[record.year]` is absent the JavaScript code would fault; the model
totalises that read with an empty object — the cell is pre-initialised for
every year appearing in the records, so the default is never exercised by
`transformCashflowData`. -/
def procRecord (categoryMap : List (String × Category)) (st : TState)
    (record : CashflowRecord) : TState :=
  match jget categoryMap record.category_id with
  | none => st
  | some category =>
      let categoryName := category.name
      let bc1 := ensureKey st.byCategory categoryName
      let inner := (jget bc1 categoryName).getD []
      let bc2 := jset bc1 categoryName (bump inner record.year record.amount)
      let yinner := (jget st.byYear record.year).getD []
      let by2 := jset st.byYear record.year (bump yinner categoryName record.amount)
      { categoryNames := setAdd st.categoryNames categoryName
        byCategory := bc2
        byYear := by2 }

/-- Model of `years.forEach(y => { byYear[y] = {} })`. -/
def initByYear (years : List Nat) : List (Nat × List (String × Int)) :=
  years.foldl (fun m y => jset m y []) []

/-- Model of `transformCashflowData(records, categories, file)`. -/
def transformCashflowData (records : List CashflowRecord)
    (categories : List Category) (file : Option UploadedFile) :
    PivotedCashflow :=
  let categoryMap := mkCategoryMap categories
  let years := jsYears records
  let st0 : TState := ⟨[], [], initByYear years⟩
  let st := records.foldl (procRecord categoryMap) st0
  let summary := calculateSummary records categoryMap years
  { byCategory := st.byCategory
    byYear := st.byYear
    categories := categoryMap
    years := years
    categoryNames := insSort strLeB st.categoryNames
    summary := summary
    records := records
    file := file }

/-! ## Observation functions and record predicates

These specification-side functions observe the structures built by
`transformCashflowData` and `calculateSummary` and characterise, per record,
which aggregation cells the record feeds. -/

/-- Sum of the amounts of a list of records. -/
def sumAmounts (l : List CashflowRecord) : Int := (l.map (fun r => r.amount)).sum

/-- Holds when the record resolves to a category of type income. -/
def isIncome (categories : List (String × Category)) (r : CashflowRecord) :
    Bool :=
  match jget categories r.category_id with
  | some c => c.type == "income"
  | none => false

/-- Holds when the record resolves to a category of type expense. -/
def isExpense (categories : List (String × Category)) (r : CashflowRecord) :
    Bool :=
  match jget categories r.category_id with
  | some c => c.type == "expense"
  | none => false

/-- Holds when the record resolves to a category named `n` and has year `y`,
so that it feeds the pivot cells `byCategory[n][y]` and `byYear[y][n]`. -/
def hitsCell (categories : List (String × Category)) (n : String) (y : Nat)
    (r : CashflowRecord) : Bool :=
  match jget categories r.category_id with
  | some c => c.name == n && r.year == y
  | none => false

/-- Cell `byCategory[n][y]`, read through the totalising empty-object
default. -/
def cellB (bc : List (String × List (Nat × Int))) (n : String) (y : Nat) :
    Option Int :=
  jget ((jget bc n).getD []) y

/-- Cell `byYear[y][n]`, read through the totalising empty-object default. -/
def cellY (byr : List (Nat × List (String × Int))) (y : Nat) (n : String) :
    Option Int :=
  jget ((jget byr y).getD []) n

/-- Value of an accumulation cell after folding a list of feeding records
over an initial observation: a present cell grows by the sum of the fed
amounts, an absent cell stays absent when no record feeds it and otherwise
holds the fed sum. -/
def obsCombine (o : Option Int) (l : List CashflowRecord) : Option Int :=
  match o with
  | some v => some (v + sumAmounts l)
  | none => if l = [] then none else some (sumAmounts l)


/-- Sum of the `byCategory` column at year `y`: every inner object
contributes its cell at `y` (0 when absent). -/
def sumB (bc : List (String × List (Nat × Int))) (y : Nat) : Int :=
  (bc.map (fun p => (jget p.2 y).getD 0)).sum

/-- Sum of the `byYear[y]` row: all values of the inner object. -/
def sumY (byr : List (Nat × List (String × Int))) (y : Nat) : Int :=
  sumVals ((jget byr y).getD [])


/-- Helper predicate: the record resolves to some category. -/
def resolved (categories : List (String × Category)) (r : CashflowRecord) :
    Bool :=
  (jget categories r.category_id).isSome


/-! ## `useCashflowAnalysis` fetch routine -/

/-- Component-local state of the hook (`data`, `isLoading`, `error`); the
error is represented by its message. -/
structure HookState where
  data : Option PivotedCashflow
  isLoading : Bool
  error : Option String
deriving DecidableEq

/-- The record store behind the three queries issued by `fetchData`; each
query either fails with a message (a query error) or returns rows. -/
structure Store where
  uploadedFiles : String → Except String (List UploadedFile)
  cashflowRecords : String → Except String (List CashflowRecord)
  cashflowCategories : Except String (List Category)

/-- The `fetchData` routine of `useCashflowAnalysis`, as a transition on the
hook state.  The second component lists the store queries performed, in
order.  A falsy `fileId` (the empty string) takes the early-return guard:
set the error, stop loading, query nothing. -/
def fetchData (store : Store) (fileId : String) (st : HookState) :
    HookState × List String :=
  if fileId = "" then
    ({ st with error := some "File ID is required", isLoading := false }, [])
  else
    let st1 := { st with isLoading := true, error := none }
    match store.uploadedFiles fileId with
    | .error msg =>
        ({ st1 with error := some ("Error fetching file: " ++ msg),
                    isLoading := false }, ["uploaded_files"])
    | .ok [] =>
        ({ st1 with
            error := some ("File with ID " ++ fileId ++
              " not found or has been deleted"),
            isLoading := false }, ["uploaded_files"])
    | .ok (file :: _) =>
        match store.cashflowRecords fileId with
          | .error msg =>
              ({ st1 with error := some ("Error fetching records: " ++ msg),
                          isLoading := false },
               ["uploaded_files", "cashflow_records"])
          | .ok records =>
              match store.cashflowCategories with
              | .error msg =>
                  ({ st1 with
                      error := some ("Error fetching categories: " ++ msg),
                      isLoading := false },
                   ["uploaded_files", "cashflow_records", "cashflow_categories"])
              | .ok categories =>
                  ({ st1 with
                      data := some (transformCashflowData records categories
                        (some file)),
                      isLoading := false },
                   ["uploaded_files", "cashflow_records", "cashflow_categories"])

end Cashflow

namespace Tasks

/-! ## Data model (`src/components/tasks/tasks-category-view.tsx`) -/

/-- A task row. -/
structure Task where
  task_id : String
  task_name : String
  description : String
  task_type : String
  category : Option String
  seller_id : String
deriving DecidableEq

/-- The projection of an uploaded-file row used by the tasks view. -/
structure UploadedFile where
  id : String
  task_id : String
  status : String
deriving DecidableEq

/-- A survey-response row (`task_id`, `value`); the value may be null. -/
structure SurveyResponse where
  task_id : String
  value : Option String
deriving DecidableEq

/-- A task as produced by the merge in `fetchTasksAndFiles`
(`Task & { response, isComplete }`); `isComplete` is optional in the
signature of `processTasksAndFiles`. -/
structure TaskWithState where
  task_id : String
  task_name : String
  description : String
  task_type : String
  category : Option String
  seller_id : String
  response : Option String
  isComplete : Option Bool
deriving DecidableEq

/-- A task inside a category bucket (`Task & { isComplete: boolean }`). -/
structure GroupedTask where
  task_id : String
  task_name : String
  description : String
  task_type : String
  category : Option String
  seller_id : String
  response : Option String
  isComplete : Bool
deriving DecidableEq

/-- A category bucket. -/
structure TaskCategory where
  name : String
  tasks : List GroupedTask
  isComplete : Bool
deriving DecidableEq

/-- JavaScript truthiness of a nullable string: null/undefined and the empty
string are falsy. -/
def truthyStr : Option String → Bool
  | none => false
  | some s => s ≠ ""

/-- The completion merge of `fetchTasksAndFiles` for one task:
`resp` is the first response whose `task_id` matches, and
`isComplete = files.some(f => f.task_id === t.task_id && f.status === "processed") || !!resp?.value`. -/
def taskWithState (files : List UploadedFile) (responses : List SurveyResponse)
    (t : Task) : TaskWithState :=
  let resp := responses.find? (fun r => r.task_id == t.task_id)
  { task_id := t.task_id
    task_name := t.task_name
    description := t.description
    task_type := t.task_type
    category := t.category
    seller_id := t.seller_id
    response := resp.bind (fun r => r.value)
    isComplete := some
      ((files.any fun f => f.task_id == t.task_id && f.status == "processed") ||
        truthyStr (resp.bind (fun r => r.value))) }

/-- Model of `tasks.map(t => ...)` applying the completion merge. -/
def tasksWithState (tasks : List Task) (files : List UploadedFile)
    (responses : List SurveyResponse) : List TaskWithState :=
  tasks.map (taskWithState files responses)

/-- Model of `task.category || "Uncategorized"`: null and the empty string are falsy. -/
def jsCategory (t : TaskWithState) : String :=
  match t.category with
  | none => "Uncategorized"
  | some c => if c ≠ "" then c else "Uncategorized"

/-- Model of `if (!g[k]) g[k] = []; g[k].push(t)`. -/
def jpush {κ : Type} [DecidableEq κ] {α : Type} (g : List (κ × List α)) (k : κ)
    (x : α) : List (κ × List α) :=
  match jget g k with
  | none => jset g k [x]
  | some l => jset g k (l ++ [x])

/-- The grouping loop of `processTasksAndFiles`: each task is pushed into the
bucket of its (defaulted) category with `isComplete := task.isComplete === true`. -/
def groupTasks (tasks : List TaskWithState) :
    List (String × List GroupedTask) :=
  tasks.foldl
    (fun g t =>
      jpush g (jsCategory t)
        { task_id := t.task_id
          task_name := t.task_name
          description := t.description
          task_type := t.task_type
          category := t.category
          seller_id := t.seller_id
          response := t.response
          isComplete := t.isComplete == some true })
    []

/-- The sort comparator of `processTasksAndFiles`, parameterised by the
locale-aware string comparison `localeCompare`:
`"Uncategorized"` sorts after everything, everything sorts before
`"Uncategorized"`, and otherwise `localeCompare` decides. -/
def catComparator (localeCompare : String → String → Int)
    (a b : TaskCategory) : Int :=
  if a.name = "Uncategorized" then 1
  else if b.name = "Uncategorized" then -1
  else localeCompare a.name b.name

/-- Holds when `a` sorts no later than `b`: the comparator is non-positive. -/
def catLe (localeCompare : String → String → Int) (a b : TaskCategory) : Bool :=
  catComparator localeCompare a b ≤ 0

/-- Model of `processTasksAndFiles(tasks, files, responses)`, parameterised by the
environment-provided `localeCompare`: group the tasks into buckets, derive
each bucket completion flag as the conjunction over its tasks, and sort the
buckets by the comparator.  The `files` and `responses` arguments are only
logged by the source at this point, the completion flags having been merged
upstream. -/
def processTasksAndFiles (localeCompare : String → String → Int)
    (tasks : List TaskWithState) (files : List UploadedFile)
    (responses : List SurveyResponse) : List TaskCategory :=
  let categoriesArray :=
    (groupTasks tasks).map fun p =>
      { name := p.1
        tasks := p.2
        isComplete := p.2.all fun t => t.isComplete : TaskCategory }
  insSort (catLe localeCompare) categoriesArray

end Tasks

/-! ## Lemmas about the association-list object model -/

section AssocLemmas

variable {κ ν : Type} [DecidableEq κ]

@[simp] theorem jget_nil (k : κ) : jget ([] : List (κ × ν)) k = none := rfl

theorem jget_jset (m : List (κ × ν)) (k : κ) (v : ν) (k' : κ) :
    jget (jset m k v) k' = if k = k' then some v else jget m k' := by
  induction m with
  | nil => simp [jget, jset]
  | cons p rest ih =>
      obtain ⟨k0, v0⟩ := p
      by_cases h : k0 = k
      · subst h
        simp only [jset, if_pos rfl, jget]
        by_cases h' : k0 = k' <;> simp [h']
      · simp only [jset, if_neg h, jget, ih]
        by_cases h' : k0 = k'
        · subst h'
          have hk : ¬ (k = k0) := fun hh => h hh.symm
          simp [hk]
        · simp [h']

theorem jget_eq_none_iff (m : List (κ × ν)) (k : κ) :
    jget m k = none ↔ k ∉ keys m := by
  induction m with
  | nil => simp [keys]
  | cons p rest ih =>
      obtain ⟨k0, v0⟩ := p
      by_cases h : k0 = k
      · subst h
        simp [jget, keys]
      · simp [jget, h, keys, Ne.symm h, ih]

theorem jget_isSome_of_mem {m : List (κ × ν)} {k : κ} (h : k ∈ keys m) :
    ∃ v, jget m k = some v := by
  cases hv : jget m k with
  | none => exact absurd ((jget_eq_none_iff m k).mp hv) (by simp [h])
  | some v => exact ⟨v, rfl⟩

@[simp] theorem keys_nil : keys ([] : List (κ × ν)) = [] := rfl

@[simp] theorem keys_cons (p : κ × ν) (m : List (κ × ν)) :
    keys (p :: m) = p.1 :: keys m := rfl

theorem keys_jset (m : List (κ × ν)) (k : κ) (v : ν) :
    keys (jset m k v) = if k ∈ keys m then keys m else keys m ++ [k] := by
  induction m with
  | nil => simp [jset, keys]
  | cons p rest ih =>
      obtain ⟨k0, v0⟩ := p
      by_cases h : k0 = k
      · subst h
        simp [jset, keys]
      · have h1 : jset ((k0, v0) :: rest) k v = (k0, v0) :: jset rest k v := by
          simp [jset, h]
        rw [h1, keys_cons, keys_cons, ih]
        by_cases hm : k ∈ keys rest
        · rw [if_pos hm, if_pos (by simp [hm])]
        · rw [if_neg hm, if_neg (by simp [hm, Ne.symm h]), List.cons_append]

theorem nodup_keys_jset {m : List (κ × ν)} (k : κ) (v : ν)
    (h : (keys m).Nodup) : (keys (jset m k v)).Nodup := by
  rw [keys_jset]
  by_cases hm : k ∈ keys m
  · simpa [hm] using h
  · simp [hm, List.nodup_append, h]

@[simp] theorem sumVals_nil : sumVals ([] : List (κ × Int)) = 0 := rfl

@[simp] theorem sumVals_cons (p : κ × Int) (m : List (κ × Int)) :
    sumVals (p :: m) = p.2 + sumVals m := by
  simp [sumVals]

theorem sumVals_jset (m : List (κ × Int)) (k : κ) (v : Int) :
    sumVals (jset m k v) = sumVals m + v - ((jget m k).getD 0) := by
  induction m with
  | nil => simp [jset, sumVals]
  | cons p rest ih =>
      obtain ⟨k0, v0⟩ := p
      by_cases h : k0 = k
      · subst h
        have h1 : jset ((k0, v0) :: rest) k0 v = (k0, v) :: rest := by
          simp [jset]
        have h2 : jget ((k0, v0) :: rest) k0 = some v0 := by simp [jget]
        rw [h1, h2, sumVals_cons, sumVals_cons]
        simp only [Option.getD_some]
        ring
      · have h1 : jset ((k0, v0) :: rest) k v = (k0, v0) :: jset rest k v := by
          simp [jset, h]
        have h2 : jget ((k0, v0) :: rest) k = jget rest k := by simp [jget, h]
        rw [h1, h2, sumVals_cons, sumVals_cons, ih]
        ring

end AssocLemmas

namespace Cashflow

section BumpLemmas

variable {κ : Type} [DecidableEq κ]

theorem jget_bump_eq (m : List (κ × Int)) (k : κ) (a : Int) :
    jget (bump m k a) k = some (((jget m k).getD 0) + a) := by
  unfold bump
  cases h : jget m k with
  | none => simp [jget_jset]
  | some v =>
      by_cases hv : v = 0 <;> simp [hv, jget_jset]

theorem jget_bump_ne (m : List (κ × Int)) (k : κ) (a : Int) (k' : κ)
    (h : k ≠ k') : jget (bump m k a) k' = jget m k' := by
  unfold bump
  cases hg : jget m k with
  | none => simp [jget_jset, h]
  | some v =>
      by_cases hv : v = 0 <;> simp [hv, jget_jset, h]

theorem sumVals_bump (m : List (κ × Int)) (k : κ) (a : Int) :
    sumVals (bump m k a) = sumVals m + a := by
  unfold bump
  cases hg : jget m k with
  | none => simp [sumVals_jset, hg]
  | some v =>
      by_cases hv : v = 0 <;> simp [hv, sumVals_jset, hg] <;> ring

end BumpLemmas

end Cashflow

section FoldWriteLemmas

variable {κ ν : Type} [DecidableEq κ]

theorem jget_foldl_jset (f : κ → ν) (ys : List κ) (m : List (κ × ν)) (k : κ) :
    jget (ys.foldl (fun m' y => jset m' y (f y)) m) k =
      if k ∈ ys then some (f k) else jget m k := by
  induction ys generalizing m with
  | nil => simp
  | cons y ys ih =>
      simp only [List.foldl_cons, ih, jget_jset, List.mem_cons]
      by_cases hmem : k ∈ ys
      · simp [hmem]
      · by_cases hy : y = k
        · subst hy
          simp [hmem]
        · simp [hmem, hy, Ne.symm hy]

end FoldWriteLemmas

namespace Cashflow

@[simp] theorem sumAmounts_nil : sumAmounts [] = 0 := rfl

@[simp] theorem sumAmounts_cons (r : CashflowRecord) (l : List CashflowRecord) :
    sumAmounts (r :: l) = r.amount + sumAmounts l := by
  simp [sumAmounts]

/-- Folding over records moves any cell observation that follows the
bump-on-hit pattern to `obsCombine` over the feeding records. -/
theorem foldl_obs {σ : Type} (step : σ → CashflowRecord → σ) (O : σ → Option Int)
    (p : CashflowRecord → Bool)
    (hstep : ∀ st r, O (step st r) =
      if p r then some (((O st).getD 0) + r.amount) else O st) :
    ∀ (records : List CashflowRecord) (st : σ),
      O (records.foldl step st) = obsCombine (O st) (records.filter p) := by
  intro records
  induction records with
  | nil =>
      intro st
      cases hO : O st <;> simp [obsCombine, hO]
  | cons r rest ih =>
      intro st
      simp only [List.foldl_cons, List.filter_cons]
      by_cases hp : p r
      · rw [if_pos hp, ih (step st r), hstep st r, if_pos hp]
        cases hO : O st with
        | some v =>
            simp only [obsCombine, hO, Option.getD_some, Option.some.injEq,
              sumAmounts_cons]
            ring
        | none =>
            simp only [obsCombine, hO, Option.getD_none]
            have hne : (r :: rest.filter p) ≠ [] := by simp
            rw [if_neg hne]
            simp only [Option.some.injEq, sumAmounts_cons]
            ring
      · rw [if_neg hp, ih (step st r), hstep st r, if_neg hp]

/-- Folding over records moves any total observation that follows the
add-on-hit pattern to the sum over the feeding records. -/
theorem foldl_total {σ : Type} (step : σ → CashflowRecord → σ) (T : σ → Int)
    (p : CashflowRecord → Bool)
    (hstep : ∀ st r, T (step st r) = if p r then T st + r.amount else T st) :
    ∀ (records : List CashflowRecord) (st : σ),
      T (records.foldl step st) = T st + sumAmounts (records.filter p) := by
  intro records
  induction records with
  | nil => intro st; simp
  | cons r rest ih =>
      intro st
      simp only [List.foldl_cons, List.filter_cons]
      by_cases hp : p r
      · rw [if_pos hp, ih (step st r), hstep st r, if_pos hp, sumAmounts_cons]
        ring
      · rw [if_neg hp, ih (step st r), hstep st r, if_neg hp]

/-! ## Step lemmas for the two record loops -/

theorem jget_ensureKey (bc : List (String × List (Nat × Int))) (name n : String) :
    jget (ensureKey bc name) n =
      if name = n then some ((jget bc name).getD []) else jget bc n := by
  unfold ensureKey
  cases hh : jget bc name with
  | none =>
      rw [jget_jset]
      by_cases he : name = n <;> simp [he, hh]
  | some v =>
      by_cases he : name = n
      · subst he
        simp [hh]
      · simp [he]

theorem cellB_procRecord (categoryMap : List (String × Category)) (st : TState)
    (r : CashflowRecord) (n : String) (y : Nat) :
    cellB (procRecord categoryMap st r).byCategory n y =
      if hitsCell categoryMap n y r then
        some (((cellB st.byCategory n y).getD 0) + r.amount)
      else cellB st.byCategory n y := by
  cases h : jget categoryMap r.category_id with
  | none => simp [procRecord, h, hitsCell]
  | some cat =>
      simp only [procRecord, h, hitsCell]
      unfold cellB
      rw [jget_jset]
      by_cases hn : cat.name = n
      · subst hn
        rw [if_pos rfl, jget_ensureKey, if_pos rfl, Option.getD_some]
        by_cases hy : r.year = y
        · subst hy
          rw [jget_bump_eq]
          simp
        · rw [jget_bump_ne _ _ _ _ hy]
          simp [hy]
      · rw [if_neg hn, jget_ensureKey, if_neg hn]
        simp [hn]

theorem cellY_procRecord (categoryMap : List (String × Category)) (st : TState)
    (r : CashflowRecord) (y : Nat) (n : String) :
    cellY (procRecord categoryMap st r).byYear y n =
      if hitsCell categoryMap n y r then
        some (((cellY st.byYear y n).getD 0) + r.amount)
      else cellY st.byYear y n := by
  cases h : jget categoryMap r.category_id with
  | none => simp [procRecord, h, hitsCell]
  | some cat =>
      simp only [procRecord, h, hitsCell]
      unfold cellY
      rw [jget_jset]
      by_cases hy : r.year = y
      · subst hy
        rw [if_pos rfl, Option.getD_some]
        by_cases hn : cat.name = n
        · subst hn
          rw [jget_bump_eq]
          simp
        · rw [jget_bump_ne _ _ _ _ hn]
          simp [hn]
      · rw [if_neg hy]
        simp [hy]

theorem incomeByYear_sumRecord (categories : List (String × Category))
    (st : SState) (r : CashflowRecord) (y : Nat) :
    jget (sumRecord categories st r).incomeByYear y =
      if isIncome categories r && r.year == y then
        some (((jget st.incomeByYear y).getD 0) + r.amount)
      else jget st.incomeByYear y := by
  cases h : jget categories r.category_id with
  | none => simp [sumRecord, h, isIncome]
  | some cat =>
      simp only [sumRecord, h, isIncome]
      by_cases hti : cat.type = "income"
      · rw [if_pos hti]
        simp only [jget_jset]
        by_cases hy : r.year = y
        · subst hy
          simp [hti]
        · simp [hti, hy]
      · rw [if_neg hti]
        by_cases hte : cat.type = "expense" <;> simp [hte, hti]

theorem expensesByYear_sumRecord (categories : List (String × Category))
    (st : SState) (r : CashflowRecord) (y : Nat) :
    jget (sumRecord categories st r).expensesByYear y =
      if isExpense categories r && r.year == y then
        some (((jget st.expensesByYear y).getD 0) + r.amount)
      else jget st.expensesByYear y := by
  cases h : jget categories r.category_id with
  | none => simp [sumRecord, h, isExpense]
  | some cat =>
      simp only [sumRecord, h, isExpense]
      by_cases hti : cat.type = "income"
      · have hte : ¬ (cat.type = "expense") := by simp [hti]
        simp [hti, hte]
      · rw [if_neg hti]
        by_cases hte : cat.type = "expense"
        · rw [if_pos hte]
          simp only [jget_jset]
          by_cases hy : r.year = y
          · subst hy
            simp [hte]
          · simp [hte, hy]
        · simp [hte, hti]

theorem totalIncome_sumRecord (categories : List (String × Category))
    (st : SState) (r : CashflowRecord) :
    (sumRecord categories st r).totalIncome =
      if isIncome categories r then st.totalIncome + r.amount
      else st.totalIncome := by
  cases h : jget categories r.category_id with
  | none => simp [sumRecord, h, isIncome]
  | some cat =>
      simp only [sumRecord, h, isIncome]
      by_cases hti : cat.type = "income"
      · simp [hti]
      · by_cases hte : cat.type = "expense" <;> simp [hte, hti]

theorem totalExpenses_sumRecord (categories : List (String × Category))
    (st : SState) (r : CashflowRecord) :
    (sumRecord categories st r).totalExpenses =
      if isExpense categories r then st.totalExpenses + r.amount
      else st.totalExpenses := by
  cases h : jget categories r.category_id with
  | none => simp [sumRecord, h, isExpense]
  | some cat =>
      simp only [sumRecord, h, isExpense]
      by_cases hti : cat.type = "income"
      · have hte : ¬ (cat.type = "expense") := by simp [hti]
        simp [hti, hte]
      · by_cases hte : cat.type = "expense" <;> simp [hte, hti]

end Cashflow

/-! ## Permutation and membership lemmas for sorting and deduplication -/

section SortMemLemmas

variable {α : Type}

theorem perm_insertLe (le : α → α → Bool) (x : α) (l : List α) :
    (insertLe le x l).Perm (x :: l) := by
  induction l with
  | nil => exact List.Perm.refl _
  | cons y l ih =>
      unfold insertLe
      by_cases h : le x y
      · rw [if_pos h]
      · rw [if_neg h]
        exact (ih.cons y).trans (List.Perm.swap x y l)

theorem perm_insSort (le : α → α → Bool) (l : List α) :
    (insSort le l).Perm l := by
  induction l with
  | nil => exact List.Perm.refl _
  | cons x l ih =>
      exact (perm_insertLe le x (insSort le l)).trans (ih.cons x)

theorem mem_insSort (le : α → α → Bool) (l : List α) (x : α) :
    x ∈ insSort le l ↔ x ∈ l :=
  (perm_insSort le l).mem_iff

theorem mem_dedupAux [DecidableEq α] (l : List α) :
    ∀ (seen : List α) (x : α), x ∈ dedupAux seen l ↔ x ∈ l ∧ x ∉ seen := by
  induction l with
  | nil => intro seen x; simp [dedupAux]
  | cons y l ih =>
      intro seen x
      unfold dedupAux
      by_cases hy : y ∈ seen
      · rw [if_pos hy, ih]
        constructor
        · rintro ⟨hl, hs⟩
          exact ⟨List.mem_cons_of_mem y hl, hs⟩
        · rintro ⟨hl, hs⟩
          rcases List.mem_cons.mp hl with h | h
          · subst h
            exact absurd hy hs
          · exact ⟨h, hs⟩
      · rw [if_neg hy]
        simp only [List.mem_cons, ih (y :: seen) x]
        constructor
        · rintro (h | ⟨hl, hs⟩)
          · subst h
            exact ⟨Or.inl rfl, hy⟩
          · refine ⟨Or.inr hl, fun hc => hs (by simp [hc])⟩
        · rintro ⟨h | h, hs⟩
          · exact Or.inl h
          · by_cases hxy : x = y
            · exact Or.inl hxy
            · exact Or.inr ⟨h, by simp [hxy, hs]⟩

theorem nodup_dedupAux [DecidableEq α] (l : List α) :
    ∀ seen : List α, (dedupAux seen l).Nodup := by
  induction l with
  | nil => intro seen; simp [dedupAux]
  | cons y l ih =>
      intro seen
      unfold dedupAux
      by_cases hy : y ∈ seen
      · rw [if_pos hy]
        exact ih seen
      · rw [if_neg hy]
        refine List.Nodup.cons ?_ (ih (y :: seen))
        intro hc
        exact ((mem_dedupAux l (y :: seen) y).mp hc).2 (List.mem_cons_self y seen)

theorem mem_dedupFirst [DecidableEq α] (l : List α) (x : α) :
    x ∈ dedupFirst l ↔ x ∈ l := by
  unfold dedupFirst
  rw [mem_dedupAux]
  simp

theorem nodup_dedupFirst [DecidableEq α] (l : List α) : (dedupFirst l).Nodup :=
  nodup_dedupAux l []

end SortMemLemmas

namespace Cashflow

/-- Membership in the derived `years` list is membership among the record
years. -/
theorem mem_jsYears (records : List CashflowRecord) (y : Nat) :
    y ∈ jsYears records ↔ ∃ r ∈ records, r.year = y := by
  unfold jsYears
  rw [mem_insSort, mem_dedupFirst]
  simp

theorem nodup_jsYears (records : List CashflowRecord) :
    (jsYears records).Nodup :=
  (perm_insSort _ _).nodup_iff.mpr (nodup_dedupFirst _)

/-! ## The two views of the partition: column sums agree with row sums -/

@[simp] theorem sumB_nil (y : Nat) : sumB [] y = 0 := rfl

@[simp] theorem sumB_cons (p : String × List (Nat × Int))
    (bc : List (String × List (Nat × Int))) (y : Nat) :
    sumB (p :: bc) y = ((jget p.2 y).getD 0) + sumB bc y := by
  simp [sumB]

theorem sumB_jset (bc : List (String × List (Nat × Int))) (k : String)
    (m' : List (Nat × Int)) (y : Nat) :
    sumB (jset bc k m') y =
      sumB bc y + ((jget m' y).getD 0) -
        ((jget ((jget bc k).getD []) y).getD 0) := by
  induction bc with
  | nil => simp [jset]
  | cons p rest ih =>
      obtain ⟨k0, v0⟩ := p
      by_cases h : k0 = k
      · subst h
        have h1 : jset ((k0, v0) :: rest) k0 m' = (k0, m') :: rest := by
          simp [jset]
        have h2 : jget ((k0, v0) :: rest) k0 = some v0 := by simp [jget]
        rw [h1, h2, sumB_cons, sumB_cons, Option.getD_some]
        ring
      · have h1 : jset ((k0, v0) :: rest) k m' = (k0, v0) :: jset rest k m' := by
          simp [jset, h]
        have h2 : jget ((k0, v0) :: rest) k = jget rest k := by simp [jget, h]
        rw [h1, h2, sumB_cons, sumB_cons, ih]
        ring

theorem sumB_ensureKey (bc : List (String × List (Nat × Int))) (name : String)
    (y : Nat) : sumB (ensureKey bc name) y = sumB bc y := by
  unfold ensureKey
  cases hh : jget bc name with
  | none =>
      rw [sumB_jset]
      simp [hh]
  | some v => rfl

theorem sumY_jset (byr : List (Nat × List (String × Int))) (k : Nat)
    (m' : List (String × Int)) (y : Nat) :
    sumY (jset byr k m') y = if k = y then sumVals m' else sumY byr y := by
  unfold sumY
  rw [jget_jset]
  by_cases h : k = y <;> simp [h]

theorem filterMap_sum_eq_sumB (bc : List (String × List (Nat × Int)))
    (y : Nat) : ((bc.filterMap (fun p => jget p.2 y)).sum) = sumB bc y := by
  induction bc with
  | nil => rfl
  | cons p rest ih =>
      cases h : jget p.2 y with
      | none => simp [List.filterMap_cons, h, ih]
      | some v => simp [List.filterMap_cons, h, ih]

/-- Each record bumps the column sums and the row sums identically, so the
agreement of the two views is preserved by every loop iteration. -/
theorem sums_procRecord (categoryMap : List (String × Category)) (st : TState)
    (r : CashflowRecord)
    (h : ∀ y, sumB st.byCategory y = sumY st.byYear y) (y : Nat) :
    sumB (procRecord categoryMap st r).byCategory y =
      sumY (procRecord categoryMap st r).byYear y := by
  cases hres : jget categoryMap r.category_id with
  | none => simp [procRecord, hres, h y]
  | some cat =>
      simp only [procRecord, hres]
      rw [sumB_jset, sumB_ensureKey, sumY_jset, jget_ensureKey, if_pos rfl,
        Option.getD_some]
      have hyi : sumVals ((jget st.byYear r.year).getD []) =
          sumY st.byYear r.year := rfl
      by_cases hy : r.year = y
      · subst hy
        rw [if_pos rfl, jget_bump_eq, sumVals_bump, hyi, Option.getD_some,
          h r.year]
        ring
      · rw [if_neg hy, jget_bump_ne _ _ _ _ hy, h y]
        ring

theorem sums_foldl (categoryMap : List (String × Category))
    (records : List CashflowRecord) :
    ∀ st : TState, (∀ y, sumB st.byCategory y = sumY st.byYear y) →
      ∀ y, sumB ((records.foldl (procRecord categoryMap) st)).byCategory y =
        sumY ((records.foldl (procRecord categoryMap) st)).byYear y := by
  induction records with
  | nil => intro st h y; exact h y
  | cons r rest ih =>
      intro st h y
      exact ih (procRecord categoryMap st r)
        (sums_procRecord categoryMap st r h) y

theorem jget_initByYear (years : List Nat) (y : Nat) :
    jget (initByYear years) y = if y ∈ years then some [] else none := by
  have h := jget_foldl_jset (fun _ : Nat => ([] : List (String × Int)))
    years [] y
  simpa [initByYear] using h

theorem jget_initZero (years : List Nat) (y : Nat) :
    jget (initZero years) y = if y ∈ years then some 0 else none := by
  have h := jget_foldl_jset (fun _ : Nat => (0 : Int)) years [] y
  simpa [initZero] using h

theorem cellY_initByYear (years : List Nat) (y : Nat) (n : String) :
    cellY (initByYear years) y n = none := by
  unfold cellY
  rw [jget_initByYear]
  by_cases h : y ∈ years <;> simp [h]

/-! ## Characterisation of the aggregates as sums over feeding records -/

theorem cellB_transform (records : List CashflowRecord)
    (cats : List Category) (file : Option UploadedFile) (n : String) (y : Nat) :
    cellB (transformCashflowData records cats file).byCategory n y =
      obsCombine none
        (records.filter (hitsCell (mkCategoryMap cats) n y)) := by
  have h := foldl_obs (procRecord (mkCategoryMap cats))
    (fun st => cellB st.byCategory n y)
    (hitsCell (mkCategoryMap cats) n y)
    (fun st r => cellB_procRecord (mkCategoryMap cats) st r n y)
    records ⟨[], [], initByYear (jsYears records)⟩
  have hinit : cellB (TState.byCategory ⟨[], [], initByYear (jsYears records)⟩)
      n y = none := by
    simp [cellB, jget]
  rw [hinit] at h
  simpa [transformCashflowData] using h

theorem cellY_transform (records : List CashflowRecord)
    (cats : List Category) (file : Option UploadedFile) (y : Nat) (n : String) :
    cellY (transformCashflowData records cats file).byYear y n =
      obsCombine none
        (records.filter (hitsCell (mkCategoryMap cats) n y)) := by
  have h := foldl_obs (procRecord (mkCategoryMap cats))
    (fun st => cellY st.byYear y n)
    (hitsCell (mkCategoryMap cats) n y)
    (fun st r => cellY_procRecord (mkCategoryMap cats) st r y n)
    records ⟨[], [], initByYear (jsYears records)⟩
  have hinit : cellY (TState.byYear ⟨[], [], initByYear (jsYears records)⟩)
      y n = none := cellY_initByYear _ _ _
  rw [hinit] at h
  simpa [transformCashflowData] using h

theorem incomeByYear_calculateSummary (records : List CashflowRecord)
    (cats : List (String × Category)) (years : List Nat) (y : Nat) :
    jget (calculateSummary records cats years).incomeByYear y =
      obsCombine (if y ∈ years then some 0 else none)
        (records.filter (fun r => isIncome cats r && r.year == y)) := by
  have h := foldl_obs (sumRecord cats)
    (fun st => jget st.incomeByYear y)
    (fun r => isIncome cats r && r.year == y)
    (fun st r => incomeByYear_sumRecord cats st r y)
    records ⟨initZero years, initZero years, 0, 0⟩
  simpa [calculateSummary, jget_initZero] using h

theorem expensesByYear_calculateSummary (records : List CashflowRecord)
    (cats : List (String × Category)) (years : List Nat) (y : Nat) :
    jget (calculateSummary records cats years).expensesByYear y =
      obsCombine (if y ∈ years then some 0 else none)
        (records.filter (fun r => isExpense cats r && r.year == y)) := by
  have h := foldl_obs (sumRecord cats)
    (fun st => jget st.expensesByYear y)
    (fun r => isExpense cats r && r.year == y)
    (fun st r => expensesByYear_sumRecord cats st r y)
    records ⟨initZero years, initZero years, 0, 0⟩
  simpa [calculateSummary, jget_initZero] using h

theorem totalIncome_calculateSummary (records : List CashflowRecord)
    (cats : List (String × Category)) (years : List Nat) :
    (calculateSummary records cats years).totalIncome =
      sumAmounts (records.filter (isIncome cats)) := by
  have h := foldl_total (sumRecord cats) (fun st => st.totalIncome)
    (isIncome cats) (fun st r => totalIncome_sumRecord cats st r)
    records ⟨initZero years, initZero years, 0, 0⟩
  simpa [calculateSummary] using h

theorem totalExpenses_calculateSummary (records : List CashflowRecord)
    (cats : List (String × Category)) (years : List Nat) :
    (calculateSummary records cats years).totalExpenses =
      sumAmounts (records.filter (isExpense cats)) := by
  have h := foldl_total (sumRecord cats) (fun st => st.totalExpenses)
    (isExpense cats) (fun st r => totalExpenses_sumRecord cats st r)
    records ⟨initZero years, initZero years, 0, 0⟩
  simpa [calculateSummary] using h

theorem totalNet_calculateSummary (records : List CashflowRecord)
    (cats : List (String × Category)) (years : List Nat) :
    (calculateSummary records cats years).totalNet =
      (calculateSummary records cats years).totalIncome -
        (calculateSummary records cats years).totalExpenses := rfl

theorem jget_netFold (inc exps : List (Nat × Int)) (years : List Nat)
    (y : Nat) :
    jget (netFold inc exps years) y =
      if y ∈ years then
        some (((jget inc y).getD 0) - ((jget exps y).getD 0))
      else none := by
  have h := jget_foldl_jset
    (fun y' => ((jget inc y').getD 0) - ((jget exps y').getD 0))
    years (initZero years) y
  by_cases hy : y ∈ years
  · simpa [netFold, hy] using h
  · simpa [netFold, hy, jget_initZero] using h

theorem netByYear_calculateSummary (records : List CashflowRecord)
    (cats : List (String × Category)) (years : List Nat) (y : Nat) :
    jget (calculateSummary records cats years).netByYear y =
      if y ∈ years then
        some
          (((jget (calculateSummary records cats years).incomeByYear y).getD 0) -
            ((jget (calculateSummary records cats years).expensesByYear y).getD 0))
      else none := by
  simpa [calculateSummary] using
    jget_netFold
      ((records.foldl (sumRecord cats)
        ⟨initZero years, initZero years, 0, 0⟩).incomeByYear)
      ((records.foldl (sumRecord cats)
        ⟨initZero years, initZero years, 0, 0⟩).expensesByYear)
      years y

/-- The summary embedded in the pivot structure is `calculateSummary` at the
derived category map and years. -/
theorem summary_transform (records : List CashflowRecord)
    (cats : List Category) (file : Option UploadedFile) :
    (transformCashflowData records cats file).summary =
      calculateSummary records (mkCategoryMap cats) (jsYears records) := rfl

/-! ## Unresolved records and permutations of the record list -/

theorem procRecord_unresolved (categoryMap : List (String × Category))
    (st : TState) (r : CashflowRecord)
    (h : jget categoryMap r.category_id = none) :
    procRecord categoryMap st r = st := by
  simp [procRecord, h]

theorem foldl_procRecord_filter_resolved
    (categoryMap : List (String × Category)) (records : List CashflowRecord) :
    ∀ st : TState,
      records.foldl (procRecord categoryMap) st =
        (records.filter (resolved categoryMap)).foldl (procRecord categoryMap)
          st := by
  induction records with
  | nil => intro st; rfl
  | cons r rest ih =>
      intro st
      cases h : resolved categoryMap r with
      | true =>
          rw [List.filter_cons, if_pos (by simp [h])]
          simp only [List.foldl_cons]
          exact ih (procRecord categoryMap st r)
      | false =>
          have hn : jget categoryMap r.category_id = none := by
            unfold resolved at h
            cases hc : jget categoryMap r.category_id with
            | none => rfl
            | some v => rw [hc] at h; simp at h
          rw [List.filter_cons, if_neg (by simp [h])]
          simp only [List.foldl_cons, procRecord_unresolved _ _ _ hn]
          exact ih st

theorem foldl_procRecord_bc_names (categoryMap : List (String × Category))
    (records : List CashflowRecord) :
    ∀ st st' : TState, st.byCategory = st'.byCategory →
      st.categoryNames = st'.categoryNames →
      (records.foldl (procRecord categoryMap) st).byCategory =
          (records.foldl (procRecord categoryMap) st').byCategory ∧
        (records.foldl (procRecord categoryMap) st).categoryNames =
          (records.foldl (procRecord categoryMap) st').categoryNames := by
  induction records with
  | nil => intro st st' h1 h2; exact ⟨h1, h2⟩
  | cons r rest ih =>
      intro st st' h1 h2
      simp only [List.foldl_cons]
      apply ih
      · cases hres : jget categoryMap r.category_id <;>
          simp [procRecord, hres, h1]
      · cases hres : jget categoryMap r.category_id <;>
          simp [procRecord, hres, h2]

theorem filter_filter_of_imp {α : Type} (p q : α → Bool) (l : List α)
    (h : ∀ a, p a = true → q a = true) :
    (l.filter q).filter p = l.filter p := by
  induction l with
  | nil => rfl
  | cons a l ih =>
      by_cases hp : p a = true
      · have hq := h a hp
        simp [List.filter_cons, hq, hp, ih]
      · have hp' : p a = false := by
          cases hpa : p a with
          | true => exact absurd hpa hp
          | false => rfl
        by_cases hq : q a = true <;>
          simp [List.filter_cons, hq, hp', ih]

theorem hitsCell_resolved (categoryMap : List (String × Category)) (n : String)
    (y : Nat) (r : CashflowRecord) (h : hitsCell categoryMap n y r = true) :
    resolved categoryMap r = true := by
  unfold hitsCell at h
  unfold resolved
  cases hc : jget categoryMap r.category_id with
  | none => rw [hc] at h; simp at h
  | some c => simp

theorem isIncome_resolved (categoryMap : List (String × Category))
    (r : CashflowRecord) (h : isIncome categoryMap r = true) :
    resolved categoryMap r = true := by
  unfold isIncome at h
  unfold resolved
  cases hc : jget categoryMap r.category_id with
  | none => rw [hc] at h; simp at h
  | some c => simp

theorem isExpense_resolved (categoryMap : List (String × Category))
    (r : CashflowRecord) (h : isExpense categoryMap r = true) :
    resolved categoryMap r = true := by
  unfold isExpense at h
  unfold resolved
  cases hc : jget categoryMap r.category_id with
  | none => rw [hc] at h; simp at h
  | some c => simp

theorem sumAmounts_perm {l l' : List CashflowRecord} (h : l.Perm l') :
    sumAmounts l = sumAmounts l' := by
  unfold sumAmounts
  exact (h.map _).sum_eq

theorem obsCombine_perm (o : Option Int) {l l' : List CashflowRecord}
    (h : l.Perm l') : obsCombine o l = obsCombine o l' := by
  have hs := sumAmounts_perm h
  cases o with
  | some v => simp [obsCombine, hs]
  | none =>
      have hlen := h.length_eq
      by_cases he : l = []
      · subst he
        have : l' = [] := by
          cases l' with
          | nil => rfl
          | cons a t => simp at hlen
        subst this
        rfl
      · have he' : l' ≠ [] := by
          intro hc
          subst hc
          cases l with
          | nil => exact he rfl
          | cons a t => simp at hlen
        simp [obsCombine, he, he', hs]

theorem obsCombine_getD (o : Option Int) (l : List CashflowRecord) :
    (obsCombine o l).getD 0 = (o.getD 0) + sumAmounts l := by
  cases o with
  | some v => simp [obsCombine]
  | none =>
      by_cases he : l = [] <;> simp [obsCombine, he]

/-! ## Claim C1 -/

/-- C1 (evaluation at the failing input): the claim says `years` is the
distinct record years in ascending numeric order, but for records with years
2 and 10 the code produces [10, 2] — `Array.prototype.sort` without a
comparator compares the decimal strings "10" and "2" — which is not
numerically ascending. -/
theorem years_string_sorted_at_failing_input :
    (transformCashflowData
        [⟨"r1", "f1", "c1", 2, 1⟩, ⟨"r2", "f1", "c1", 10, 1⟩] [] none).years =
      [10, 2] ∧
    ¬ List.Sorted (· ≤ ·)
      (transformCashflowData
        [⟨"r1", "f1", "c1", 2, 1⟩, ⟨"r2", "f1", "c1", 10, 1⟩] [] none).years := by
  decide

/-! ## Claim C3 -/

/-- C3: for every record list, category list, file and year `y` in the
`years` of the pivot result, the sum of the present cells `byCategory[c][y]`
over all category columns `c` equals the sum of the values of the row object
`byYear[y]`. -/
theorem byCategory_byYear_sums_agree (records : List CashflowRecord)
    (cats : List Category) (file : Option UploadedFile) (y : Nat)
    (hy : y ∈ (transformCashflowData records cats file).years) :
    ((transformCashflowData records cats file).byCategory.filterMap
        (fun p => jget p.2 y)).sum =
      sumVals ((jget (transformCashflowData records cats file).byYear y).getD []) := by
  rw [filterMap_sum_eq_sumB]
  have h0 : ∀ y' : Nat,
      sumB (TState.byCategory ⟨[], [], initByYear (jsYears records)⟩) y' =
        sumY (TState.byYear ⟨[], [], initByYear (jsYears records)⟩) y' := by
    intro y'
    show sumB [] y' = sumY (initByYear (jsYears records)) y'
    unfold sumY
    rw [jget_initByYear]
    by_cases h : y' ∈ jsYears records <;> simp [h]
  have h := sums_foldl (mkCategoryMap cats) records
    ⟨[], [], initByYear (jsYears records)⟩ h0 y
  have hbc : (transformCashflowData records cats file).byCategory =
      (records.foldl (procRecord (mkCategoryMap cats))
        ⟨[], [], initByYear (jsYears records)⟩).byCategory := rfl
  have hby : (transformCashflowData records cats file).byYear =
      (records.foldl (procRecord (mkCategoryMap cats))
        ⟨[], [], initByYear (jsYears records)⟩).byYear := rfl
  rw [hbc, hby]
  exact h

/-- Witness for C3 at the worked example of the spec. -/
theorem byCategory_byYear_sums_agree_witness :
    2022 ∈ (transformCashflowData
        [⟨"r1", "f1", "c1", 2022, 100⟩, ⟨"r2", "f1", "c1", 2022, 50⟩,
          ⟨"r3", "f1", "c2", 2022, -30⟩]
        [⟨"c1", "Sales", "income"⟩, ⟨"c2", "Rent", "expense"⟩] none).years ∧
    ((transformCashflowData
        [⟨"r1", "f1", "c1", 2022, 100⟩, ⟨"r2", "f1", "c1", 2022, 50⟩,
          ⟨"r3", "f1", "c2", 2022, -30⟩]
        [⟨"c1", "Sales", "income"⟩, ⟨"c2", "Rent", "expense"⟩] none).byCategory.filterMap
        (fun p => jget p.2 2022)).sum =
      sumVals ((jget (transformCashflowData
        [⟨"r1", "f1", "c1", 2022, 100⟩, ⟨"r2", "f1", "c1", 2022, 50⟩,
          ⟨"r3", "f1", "c2", 2022, -30⟩]
        [⟨"c1", "Sales", "income"⟩, ⟨"c2", "Rent", "expense"⟩] none).byYear 2022).getD []) :=
  ⟨by decide,
    byCategory_byYear_sums_agree
      [⟨"r1", "f1", "c1", 2022, 100⟩, ⟨"r2", "f1", "c1", 2022, 50⟩,
        ⟨"r3", "f1", "c2", 2022, -30⟩]
      [⟨"c1", "Sales", "income"⟩, ⟨"c2", "Rent", "expense"⟩] none 2022 (by decide)⟩

/-! ## Claim C4 -/

/-- C4: for every record list, category lookup, year list and year `y` in
that list, the summary has present cells with
`netByYear[y] = incomeByYear[y] - expensesByYear[y]`, and
`totalNet = totalIncome - totalExpenses` exactly. -/
theorem calculateSummary_net_identity (records : List CashflowRecord)
    (cats : List (String × Category)) (years : List Nat) (y : Nat)
    (hy : y ∈ years) :
    (∃ i e : Int,
      jget (calculateSummary records cats years).incomeByYear y = some i ∧
      jget (calculateSummary records cats years).expensesByYear y = some e ∧
      jget (calculateSummary records cats years).netByYear y = some (i - e)) ∧
    (calculateSummary records cats years).totalNet =
      (calculateSummary records cats years).totalIncome -
        (calculateSummary records cats years).totalExpenses := by
  constructor
  · have hi := incomeByYear_calculateSummary records cats years y
    have he := expensesByYear_calculateSummary records cats years y
    have hn := netByYear_calculateSummary records cats years y
    rw [if_pos hy] at hi he hn
    simp only [obsCombine] at hi he
    rw [hi, he] at hn
    simp only [Option.getD_some] at hn
    exact ⟨_, _, hi, he, hn⟩
  · rfl

/-- Witness for C4. -/
theorem calculateSummary_net_identity_witness :
    2022 ∈ [2022, 2023] ∧
    ((∃ i e : Int,
      jget (calculateSummary [⟨"r1", "f1", "c1", 2022, 7⟩]
        [("c1", ⟨"c1", "Sales", "income"⟩)] [2022, 2023]).incomeByYear 2022 =
          some i ∧
      jget (calculateSummary [⟨"r1", "f1", "c1", 2022, 7⟩]
        [("c1", ⟨"c1", "Sales", "income"⟩)] [2022, 2023]).expensesByYear 2022 =
          some e ∧
      jget (calculateSummary [⟨"r1", "f1", "c1", 2022, 7⟩]
        [("c1", ⟨"c1", "Sales", "income"⟩)] [2022, 2023]).netByYear 2022 =
          some (i - e)) ∧
    (calculateSummary [⟨"r1", "f1", "c1", 2022, 7⟩]
      [("c1", ⟨"c1", "Sales", "income"⟩)] [2022, 2023]).totalNet =
      (calculateSummary [⟨"r1", "f1", "c1", 2022, 7⟩]
        [("c1", ⟨"c1", "Sales", "income"⟩)] [2022, 2023]).totalIncome -
        (calculateSummary [⟨"r1", "f1", "c1", 2022, 7⟩]
          [("c1", ⟨"c1", "Sales", "income"⟩)] [2022, 2023]).totalExpenses) :=
  ⟨by decide,
    calculateSummary_net_identity [⟨"r1", "f1", "c1", 2022, 7⟩]
      [("c1", ⟨"c1", "Sales", "income"⟩)] [2022, 2023] 2022 (by decide)⟩

/-! ## Claim C5 -/

/-- C5: `totalIncome` is the sum of the amounts of the records whose
resolved category has type income, `totalExpenses` the same for type
expense, and per year `y` in `years` the cells hold the year-restricted
sums; records of any other resolved type are counted in neither (both sums
range over exactly the income, respectively expense, records). -/
theorem calculateSummary_income_expense_sums (records : List CashflowRecord)
    (cats : List (String × Category)) (years : List Nat) (y : Nat)
    (hy : y ∈ years) :
    (calculateSummary records cats years).totalIncome =
      sumAmounts (records.filter (isIncome cats)) ∧
    (calculateSummary records cats years).totalExpenses =
      sumAmounts (records.filter (isExpense cats)) ∧
    jget (calculateSummary records cats years).incomeByYear y =
      some (sumAmounts
        (records.filter (fun r => isIncome cats r && r.year == y))) ∧
    jget (calculateSummary records cats years).expensesByYear y =
      some (sumAmounts
        (records.filter (fun r => isExpense cats r && r.year == y))) := by
  refine ⟨totalIncome_calculateSummary records cats years,
    totalExpenses_calculateSummary records cats years, ?_, ?_⟩
  · have hi := incomeByYear_calculateSummary records cats years y
    rw [if_pos hy] at hi
    simpa [obsCombine] using hi
  · have he := expensesByYear_calculateSummary records cats years y
    rw [if_pos hy] at he
    simpa [obsCombine] using he

/-- Witness for C5: one income record, one expense record, one debt record;
the debt record is counted in neither total. -/
theorem calculateSummary_income_expense_sums_witness :
    2022 ∈ [2022] ∧
    ((calculateSummary
        [⟨"r1", "f1", "c1", 2022, 100⟩, ⟨"r2", "f1", "c2", 2022, 40⟩,
          ⟨"r3", "f1", "c3", 2022, 9⟩]
        [("c1", ⟨"c1", "Sales", "income"⟩), ("c2", ⟨"c2", "Rent", "expense"⟩),
          ("c3", ⟨"c3", "Loan", "debt"⟩)] [2022]).totalIncome =
      sumAmounts
        (([⟨"r1", "f1", "c1", 2022, 100⟩, ⟨"r2", "f1", "c2", 2022, 40⟩,
          ⟨"r3", "f1", "c3", 2022, 9⟩] : List CashflowRecord).filter
          (isIncome [("c1", ⟨"c1", "Sales", "income"⟩),
            ("c2", ⟨"c2", "Rent", "expense"⟩), ("c3", ⟨"c3", "Loan", "debt"⟩)])) ∧
    (calculateSummary
        [⟨"r1", "f1", "c1", 2022, 100⟩, ⟨"r2", "f1", "c2", 2022, 40⟩,
          ⟨"r3", "f1", "c3", 2022, 9⟩]
        [("c1", ⟨"c1", "Sales", "income"⟩), ("c2", ⟨"c2", "Rent", "expense"⟩),
          ("c3", ⟨"c3", "Loan", "debt"⟩)] [2022]).totalExpenses =
      sumAmounts
        (([⟨"r1", "f1", "c1", 2022, 100⟩, ⟨"r2", "f1", "c2", 2022, 40⟩,
          ⟨"r3", "f1", "c3", 2022, 9⟩] : List CashflowRecord).filter
          (isExpense [("c1", ⟨"c1", "Sales", "income"⟩),
            ("c2", ⟨"c2", "Rent", "expense"⟩), ("c3", ⟨"c3", "Loan", "debt"⟩)])) ∧
    jget (calculateSummary
        [⟨"r1", "f1", "c1", 2022, 100⟩, ⟨"r2", "f1", "c2", 2022, 40⟩,
          ⟨"r3", "f1", "c3", 2022, 9⟩]
        [("c1", ⟨"c1", "Sales", "income"⟩), ("c2", ⟨"c2", "Rent", "expense"⟩),
          ("c3", ⟨"c3", "Loan", "debt"⟩)] [2022]).incomeByYear 2022 =
      some (sumAmounts
        (([⟨"r1", "f1", "c1", 2022, 100⟩, ⟨"r2", "f1", "c2", 2022, 40⟩,
          ⟨"r3", "f1", "c3", 2022, 9⟩] : List CashflowRecord).filter
          (fun r => isIncome [("c1", ⟨"c1", "Sales", "income"⟩),
            ("c2", ⟨"c2", "Rent", "expense"⟩), ("c3", ⟨"c3", "Loan", "debt"⟩)] r &&
            r.year == 2022))) ∧
    jget (calculateSummary
        [⟨"r1", "f1", "c1", 2022, 100⟩, ⟨"r2", "f1", "c2", 2022, 40⟩,
          ⟨"r3", "f1", "c3", 2022, 9⟩]
        [("c1", ⟨"c1", "Sales", "income"⟩), ("c2", ⟨"c2", "Rent", "expense"⟩),
          ("c3", ⟨"c3", "Loan", "debt"⟩)] [2022]).expensesByYear 2022 =
      some (sumAmounts
        (([⟨"r1", "f1", "c1", 2022, 100⟩, ⟨"r2", "f1", "c2", 2022, 40⟩,
          ⟨"r3", "f1", "c3", 2022, 9⟩] : List CashflowRecord).filter
          (fun r => isExpense [("c1", ⟨"c1", "Sales", "income"⟩),
            ("c2", ⟨"c2", "Rent", "expense"⟩), ("c3", ⟨"c3", "Loan", "debt"⟩)] r &&
            r.year == 2022)))) :=
  ⟨by decide,
    calculateSummary_income_expense_sums
      [⟨"r1", "f1", "c1", 2022, 100⟩, ⟨"r2", "f1", "c2", 2022, 40⟩,
        ⟨"r3", "f1", "c3", 2022, 9⟩]
      [("c1", ⟨"c1", "Sales", "income"⟩), ("c2", ⟨"c2", "Rent", "expense"⟩),
        ("c3", ⟨"c3", "Loan", "debt"⟩)] [2022] 2022 (by decide)⟩

/-! ## Claim C6 -/

/-- C6: a record whose category id has no matching category is skipped
without raising an error: dropping all such records leaves `byCategory`,
`categoryNames`, every cell of `byYear`, and every summary figure (totals
and the per-year cells, read with default 0) unchanged — the unresolved
records contribute zero everywhere and their categories never appear among
the category names. -/
theorem unresolved_records_contribute_nothing (records : List CashflowRecord)
    (cats : List Category) (file : Option UploadedFile) :
    (transformCashflowData records cats file).byCategory =
      (transformCashflowData (records.filter (resolved (mkCategoryMap cats)))
        cats file).byCategory ∧
    (transformCashflowData records cats file).categoryNames =
      (transformCashflowData (records.filter (resolved (mkCategoryMap cats)))
        cats file).categoryNames ∧
    (∀ y n, cellY (transformCashflowData records cats file).byYear y n =
      cellY (transformCashflowData (records.filter (resolved (mkCategoryMap cats)))
        cats file).byYear y n) ∧
    (transformCashflowData records cats file).summary.totalIncome =
      (transformCashflowData (records.filter (resolved (mkCategoryMap cats)))
        cats file).summary.totalIncome ∧
    (transformCashflowData records cats file).summary.totalExpenses =
      (transformCashflowData (records.filter (resolved (mkCategoryMap cats)))
        cats file).summary.totalExpenses ∧
    (transformCashflowData records cats file).summary.totalNet =
      (transformCashflowData (records.filter (resolved (mkCategoryMap cats)))
        cats file).summary.totalNet ∧
    (∀ y, (jget (transformCashflowData records cats file).summary.incomeByYear
        y).getD 0 =
      (jget (transformCashflowData (records.filter (resolved (mkCategoryMap cats)))
        cats file).summary.incomeByYear y).getD 0) ∧
    (∀ y, (jget (transformCashflowData records cats file).summary.expensesByYear
        y).getD 0 =
      (jget (transformCashflowData (records.filter (resolved (mkCategoryMap cats)))
        cats file).summary.expensesByYear y).getD 0) ∧
    (∀ y, (jget (transformCashflowData records cats file).summary.netByYear
        y).getD 0 =
      (jget (transformCashflowData (records.filter (resolved (mkCategoryMap cats)))
        cats file).summary.netByYear y).getD 0) := by
  have hFsub : ∀ r, r ∈ records.filter (resolved (mkCategoryMap cats)) →
      r ∈ records :=
    fun r hr => (List.mem_filter.mp hr).1
  have hsplit := foldl_procRecord_filter_resolved (mkCategoryMap cats) records
    ⟨[], [], initByYear (jsYears records)⟩
  have hproj := foldl_procRecord_bc_names (mkCategoryMap cats)
    (records.filter (resolved (mkCategoryMap cats)))
    ⟨[], [], initByYear (jsYears records)⟩
    ⟨[], [],
      initByYear (jsYears (records.filter (resolved (mkCategoryMap cats))))⟩
    rfl rfl
  have himpI : ∀ y : Nat, ∀ r : CashflowRecord,
      (isIncome (mkCategoryMap cats) r && r.year == y) = true →
        resolved (mkCategoryMap cats) r = true := by
    intro y r hr
    have hr' : isIncome (mkCategoryMap cats) r = true ∧ (r.year == y) = true := by
      simpa using hr
    exact isIncome_resolved _ r hr'.1
  have himpE : ∀ y : Nat, ∀ r : CashflowRecord,
      (isExpense (mkCategoryMap cats) r && r.year == y) = true →
        resolved (mkCategoryMap cats) r = true := by
    intro y r hr
    have hr' : isExpense (mkCategoryMap cats) r = true ∧ (r.year == y) = true := by
      simpa using hr
    exact isExpense_resolved _ r hr'.1
  have hti : (calculateSummary records (mkCategoryMap cats)
        (jsYears records)).totalIncome =
      (calculateSummary (records.filter (resolved (mkCategoryMap cats)))
        (mkCategoryMap cats)
        (jsYears (records.filter (resolved (mkCategoryMap cats))))).totalIncome := by
    rw [totalIncome_calculateSummary, totalIncome_calculateSummary,
      filter_filter_of_imp _ _ records (isIncome_resolved (mkCategoryMap cats))]
  have hte : (calculateSummary records (mkCategoryMap cats)
        (jsYears records)).totalExpenses =
      (calculateSummary (records.filter (resolved (mkCategoryMap cats)))
        (mkCategoryMap cats)
        (jsYears (records.filter (resolved (mkCategoryMap cats))))).totalExpenses := by
    rw [totalExpenses_calculateSummary, totalExpenses_calculateSummary,
      filter_filter_of_imp _ _ records (isExpense_resolved (mkCategoryMap cats))]
  have hincD : ∀ y, (jget (calculateSummary records (mkCategoryMap cats)
        (jsYears records)).incomeByYear y).getD 0 =
      sumAmounts (records.filter
        (fun r => isIncome (mkCategoryMap cats) r && r.year == y)) := by
    intro y
    rw [incomeByYear_calculateSummary, obsCombine_getD]
    by_cases h : y ∈ jsYears records <;> simp [h]
  have hincDF : ∀ y,
      (jget (calculateSummary (records.filter (resolved (mkCategoryMap cats)))
        (mkCategoryMap cats)
        (jsYears (records.filter (resolved (mkCategoryMap cats))))).incomeByYear
          y).getD 0 =
      sumAmounts (records.filter
        (fun r => isIncome (mkCategoryMap cats) r && r.year == y)) := by
    intro y
    rw [incomeByYear_calculateSummary, obsCombine_getD,
      filter_filter_of_imp _ _ records (himpI y)]
    by_cases h : y ∈ jsYears (records.filter (resolved (mkCategoryMap cats))) <;>
      simp [h]
  have hexpD : ∀ y, (jget (calculateSummary records (mkCategoryMap cats)
        (jsYears records)).expensesByYear y).getD 0 =
      sumAmounts (records.filter
        (fun r => isExpense (mkCategoryMap cats) r && r.year == y)) := by
    intro y
    rw [expensesByYear_calculateSummary, obsCombine_getD]
    by_cases h : y ∈ jsYears records <;> simp [h]
  have hexpDF : ∀ y,
      (jget (calculateSummary (records.filter (resolved (mkCategoryMap cats)))
        (mkCategoryMap cats)
        (jsYears (records.filter (resolved (mkCategoryMap cats))))).expensesByYear
          y).getD 0 =
      sumAmounts (records.filter
        (fun r => isExpense (mkCategoryMap cats) r && r.year == y)) := by
    intro y
    rw [expensesByYear_calculateSummary, obsCombine_getD,
      filter_filter_of_imp _ _ records (himpE y)]
    by_cases h : y ∈ jsYears (records.filter (resolved (mkCategoryMap cats))) <;>
      simp [h]
  have hyearsFP : ∀ y,
      y ∈ jsYears (records.filter (resolved (mkCategoryMap cats))) →
        y ∈ jsYears records := by
    intro y hy
    obtain ⟨r, hr, hyr⟩ := (mem_jsYears _ y).mp hy
    exact (mem_jsYears records y).mpr ⟨r, hFsub r hr, hyr⟩
  have hzeroI : ∀ y, y ∉ jsYears (records.filter (resolved (mkCategoryMap cats))) →
      sumAmounts (records.filter
        (fun r => isIncome (mkCategoryMap cats) r && r.year == y)) = 0 := by
    intro y hyF
    have hnil : records.filter
        (fun r => isIncome (mkCategoryMap cats) r && r.year == y) = [] := by
      rw [List.filter_eq_nil_iff]
      intro r hr hc
      have hc' : isIncome (mkCategoryMap cats) r = true ∧ (r.year == y) = true := by
        simpa using hc
      have hmem : r ∈ records.filter (resolved (mkCategoryMap cats)) :=
        List.mem_filter.mpr ⟨hr, isIncome_resolved _ r hc'.1⟩
      have hyr : r.year = y := by simpa using hc'.2
      exact hyF ((mem_jsYears _ y).mpr ⟨r, hmem, hyr⟩)
    rw [hnil]
    rfl
  have hzeroE : ∀ y, y ∉ jsYears (records.filter (resolved (mkCategoryMap cats))) →
      sumAmounts (records.filter
        (fun r => isExpense (mkCategoryMap cats) r && r.year == y)) = 0 := by
    intro y hyF
    have hnil : records.filter
        (fun r => isExpense (mkCategoryMap cats) r && r.year == y) = [] := by
      rw [List.filter_eq_nil_iff]
      intro r hr hc
      have hc' : isExpense (mkCategoryMap cats) r = true ∧ (r.year == y) = true := by
        simpa using hc
      have hmem : r ∈ records.filter (resolved (mkCategoryMap cats)) :=
        List.mem_filter.mpr ⟨hr, isExpense_resolved _ r hc'.1⟩
      have hyr : r.year = y := by simpa using hc'.2
      exact hyF ((mem_jsYears _ y).mpr ⟨r, hmem, hyr⟩)
    rw [hnil]
    rfl
  have hnetD : ∀ y, (jget (calculateSummary records (mkCategoryMap cats)
        (jsYears records)).netByYear y).getD 0 =
      (jget (calculateSummary (records.filter (resolved (mkCategoryMap cats)))
        (mkCategoryMap cats)
        (jsYears (records.filter (resolved (mkCategoryMap cats))))).netByYear
          y).getD 0 := by
    intro y
    rw [netByYear_calculateSummary, netByYear_calculateSummary]
    by_cases hyF : y ∈ jsYears (records.filter (resolved (mkCategoryMap cats)))
    · rw [if_pos hyF, if_pos (hyearsFP y hyF), Option.getD_some,
        Option.getD_some, hincD y, hincDF y, hexpD y, hexpDF y]
    · by_cases hyP : y ∈ jsYears records
      · rw [if_pos hyP, if_neg hyF, Option.getD_some, Option.getD_none,
          hincD y, hexpD y, hzeroI y hyF, hzeroE y hyF]
        rfl
      · rw [if_neg hyP, if_neg hyF]
  refine ⟨?_, ?_, ?_, hti, hte, ?_,
    fun y => (hincD y).trans (hincDF y).symm,
    fun y => (hexpD y).trans (hexpDF y).symm, hnetD⟩
  · show (records.foldl (procRecord (mkCategoryMap cats))
        ⟨[], [], initByYear (jsYears records)⟩).byCategory =
      ((records.filter (resolved (mkCategoryMap cats))).foldl
        (procRecord (mkCategoryMap cats))
        ⟨[], [],
          initByYear (jsYears (records.filter (resolved (mkCategoryMap cats))))⟩).byCategory
    rw [hsplit]
    exact hproj.1
  · show insSort strLeB ((records.foldl (procRecord (mkCategoryMap cats))
        ⟨[], [], initByYear (jsYears records)⟩).categoryNames) =
      insSort strLeB (((records.filter (resolved (mkCategoryMap cats))).foldl
        (procRecord (mkCategoryMap cats))
        ⟨[], [],
          initByYear (jsYears (records.filter (resolved (mkCategoryMap cats))))⟩).categoryNames)
    rw [hsplit, hproj.2]
  · intro y n
    rw [cellY_transform, cellY_transform]
    exact congrArg (obsCombine none)
      (filter_filter_of_imp (hitsCell (mkCategoryMap cats) n y)
        (resolved (mkCategoryMap cats)) records
        (hitsCell_resolved (mkCategoryMap cats) n y)).symm
  · show (calculateSummary records (mkCategoryMap cats)
        (jsYears records)).totalNet =
      (calculateSummary (records.filter (resolved (mkCategoryMap cats)))
        (mkCategoryMap cats)
        (jsYears (records.filter (resolved (mkCategoryMap cats))))).totalNet
    rw [totalNet_calculateSummary, totalNet_calculateSummary, hti, hte]

/-! ## Claim C7 -/

/-- C7: permuting the record list leaves both pivot views unchanged as maps
(every cell of `byCategory` and of `byYear` agrees) and leaves every summary
figure unchanged: the totals and, for every year, the income, expense and
net lookups. -/
theorem transform_perm_invariant (records records2 : List CashflowRecord)
    (cats : List Category) (file : Option UploadedFile)
    (hperm : records.Perm records2) :
    (∀ n y, cellB (transformCashflowData records cats file).byCategory n y =
      cellB (transformCashflowData records2 cats file).byCategory n y) ∧
    (∀ y n, cellY (transformCashflowData records cats file).byYear y n =
      cellY (transformCashflowData records2 cats file).byYear y n) ∧
    (transformCashflowData records cats file).summary.totalIncome =
      (transformCashflowData records2 cats file).summary.totalIncome ∧
    (transformCashflowData records cats file).summary.totalExpenses =
      (transformCashflowData records2 cats file).summary.totalExpenses ∧
    (transformCashflowData records cats file).summary.totalNet =
      (transformCashflowData records2 cats file).summary.totalNet ∧
    (∀ y, jget (transformCashflowData records cats file).summary.incomeByYear y =
      jget (transformCashflowData records2 cats file).summary.incomeByYear y) ∧
    (∀ y, jget (transformCashflowData records cats file).summary.expensesByYear y =
      jget (transformCashflowData records2 cats file).summary.expensesByYear y) ∧
    (∀ y, jget (transformCashflowData records cats file).summary.netByYear y =
      jget (transformCashflowData records2 cats file).summary.netByYear y) := by
  have hyiff : ∀ y, y ∈ jsYears records ↔ y ∈ jsYears records2 := by
    intro y
    rw [mem_jsYears, mem_jsYears]
    constructor
    · rintro ⟨r, hr, h⟩
      exact ⟨r, hperm.mem_iff.mp hr, h⟩
    · rintro ⟨r, hr, h⟩
      exact ⟨r, hperm.mem_iff.mpr hr, h⟩
  have hinit : ∀ y, (if y ∈ jsYears records then some (0 : Int) else none) =
      (if y ∈ jsYears records2 then some 0 else none) := by
    intro y
    by_cases h : y ∈ jsYears records
    · rw [if_pos h, if_pos ((hyiff y).mp h)]
    · rw [if_neg h, if_neg (fun hc => h ((hyiff y).mpr hc))]
  have hti : (calculateSummary records (mkCategoryMap cats)
        (jsYears records)).totalIncome =
      (calculateSummary records2 (mkCategoryMap cats)
        (jsYears records2)).totalIncome := by
    rw [totalIncome_calculateSummary, totalIncome_calculateSummary]
    exact sumAmounts_perm (hperm.filter _)
  have hte : (calculateSummary records (mkCategoryMap cats)
        (jsYears records)).totalExpenses =
      (calculateSummary records2 (mkCategoryMap cats)
        (jsYears records2)).totalExpenses := by
    rw [totalExpenses_calculateSummary, totalExpenses_calculateSummary]
    exact sumAmounts_perm (hperm.filter _)
  have hinc : ∀ y, jget (calculateSummary records (mkCategoryMap cats)
        (jsYears records)).incomeByYear y =
      jget (calculateSummary records2 (mkCategoryMap cats)
        (jsYears records2)).incomeByYear y := by
    intro y
    rw [incomeByYear_calculateSummary, incomeByYear_calculateSummary, hinit y]
    exact obsCombine_perm _ (hperm.filter _)
  have hexp : ∀ y, jget (calculateSummary records (mkCategoryMap cats)
        (jsYears records)).expensesByYear y =
      jget (calculateSummary records2 (mkCategoryMap cats)
        (jsYears records2)).expensesByYear y := by
    intro y
    rw [expensesByYear_calculateSummary, expensesByYear_calculateSummary,
      hinit y]
    exact obsCombine_perm _ (hperm.filter _)
  have hnet : ∀ y, jget (calculateSummary records (mkCategoryMap cats)
        (jsYears records)).netByYear y =
      jget (calculateSummary records2 (mkCategoryMap cats)
        (jsYears records2)).netByYear y := by
    intro y
    rw [netByYear_calculateSummary, netByYear_calculateSummary]
    by_cases h : y ∈ jsYears records
    · rw [if_pos h, if_pos ((hyiff y).mp h), hinc y, hexp y]
    · rw [if_neg h, if_neg (fun hc => h ((hyiff y).mpr hc))]
  refine ⟨?_, ?_, hti, hte, ?_, hinc, hexp, hnet⟩
  · intro n y
    rw [cellB_transform, cellB_transform]
    exact obsCombine_perm _ (hperm.filter _)
  · intro y n
    rw [cellY_transform, cellY_transform]
    exact obsCombine_perm _ (hperm.filter _)
  · show (calculateSummary records (mkCategoryMap cats)
        (jsYears records)).totalNet =
      (calculateSummary records2 (mkCategoryMap cats)
        (jsYears records2)).totalNet
    rw [totalNet_calculateSummary, totalNet_calculateSummary, hti, hte]

/-- Witness for C7: two records in the two orders. -/
theorem transform_perm_invariant_witness :
    (∀ n y, cellB (transformCashflowData
        [⟨"r1", "f1", "c1", 2022, 5⟩, ⟨"r2", "f1", "c2", 2023, 7⟩]
        [⟨"c1", "Sales", "income"⟩, ⟨"c2", "Rent", "expense"⟩] none).byCategory
        n y =
      cellB (transformCashflowData
        [⟨"r2", "f1", "c2", 2023, 7⟩, ⟨"r1", "f1", "c1", 2022, 5⟩]
        [⟨"c1", "Sales", "income"⟩, ⟨"c2", "Rent", "expense"⟩] none).byCategory
        n y) ∧
    (∀ y n, cellY (transformCashflowData
        [⟨"r1", "f1", "c1", 2022, 5⟩, ⟨"r2", "f1", "c2", 2023, 7⟩]
        [⟨"c1", "Sales", "income"⟩, ⟨"c2", "Rent", "expense"⟩] none).byYear
        y n =
      cellY (transformCashflowData
        [⟨"r2", "f1", "c2", 2023, 7⟩, ⟨"r1", "f1", "c1", 2022, 5⟩]
        [⟨"c1", "Sales", "income"⟩, ⟨"c2", "Rent", "expense"⟩] none).byYear
        y n) ∧
    (transformCashflowData
        [⟨"r1", "f1", "c1", 2022, 5⟩, ⟨"r2", "f1", "c2", 2023, 7⟩]
        [⟨"c1", "Sales", "income"⟩, ⟨"c2", "Rent", "expense"⟩] none).summary.totalIncome =
      (transformCashflowData
        [⟨"r2", "f1", "c2", 2023, 7⟩, ⟨"r1", "f1", "c1", 2022, 5⟩]
        [⟨"c1", "Sales", "income"⟩, ⟨"c2", "Rent", "expense"⟩] none).summary.totalIncome ∧
    (transformCashflowData
        [⟨"r1", "f1", "c1", 2022, 5⟩, ⟨"r2", "f1", "c2", 2023, 7⟩]
        [⟨"c1", "Sales", "income"⟩, ⟨"c2", "Rent", "expense"⟩] none).summary.totalExpenses =
      (transformCashflowData
        [⟨"r2", "f1", "c2", 2023, 7⟩, ⟨"r1", "f1", "c1", 2022, 5⟩]
        [⟨"c1", "Sales", "income"⟩, ⟨"c2", "Rent", "expense"⟩] none).summary.totalExpenses ∧
    (transformCashflowData
        [⟨"r1", "f1", "c1", 2022, 5⟩, ⟨"r2", "f1", "c2", 2023, 7⟩]
        [⟨"c1", "Sales", "income"⟩, ⟨"c2", "Rent", "expense"⟩] none).summary.totalNet =
      (transformCashflowData
        [⟨"r2", "f1", "c2", 2023, 7⟩, ⟨"r1", "f1", "c1", 2022, 5⟩]
        [⟨"c1", "Sales", "income"⟩, ⟨"c2", "Rent", "expense"⟩] none).summary.totalNet ∧
    (∀ y, jget (transformCashflowData
        [⟨"r1", "f1", "c1", 2022, 5⟩, ⟨"r2", "f1", "c2", 2023, 7⟩]
        [⟨"c1", "Sales", "income"⟩, ⟨"c2", "Rent", "expense"⟩] none).summary.incomeByYear y =
      jget (transformCashflowData
        [⟨"r2", "f1", "c2", 2023, 7⟩, ⟨"r1", "f1", "c1", 2022, 5⟩]
        [⟨"c1", "Sales", "income"⟩, ⟨"c2", "Rent", "expense"⟩] none).summary.incomeByYear y) ∧
    (∀ y, jget (transformCashflowData
        [⟨"r1", "f1", "c1", 2022, 5⟩, ⟨"r2", "f1", "c2", 2023, 7⟩]
        [⟨"c1", "Sales", "income"⟩, ⟨"c2", "Rent", "expense"⟩] none).summary.expensesByYear y =
      jget (transformCashflowData
        [⟨"r2", "f1", "c2", 2023, 7⟩, ⟨"r1", "f1", "c1", 2022, 5⟩]
        [⟨"c1", "Sales", "income"⟩, ⟨"c2", "Rent", "expense"⟩] none).summary.expensesByYear y) ∧
    (∀ y, jget (transformCashflowData
        [⟨"r1", "f1", "c1", 2022, 5⟩, ⟨"r2", "f1", "c2", 2023, 7⟩]
        [⟨"c1", "Sales", "income"⟩, ⟨"c2", "Rent", "expense"⟩] none).summary.netByYear y =
      jget (transformCashflowData
        [⟨"r2", "f1", "c2", 2023, 7⟩, ⟨"r1", "f1", "c1", 2022, 5⟩]
        [⟨"c1", "Sales", "income"⟩, ⟨"c2", "Rent", "expense"⟩] none).summary.netByYear y) :=
  transform_perm_invariant
    [⟨"r1", "f1", "c1", 2022, 5⟩, ⟨"r2", "f1", "c2", 2023, 7⟩]
    [⟨"r2", "f1", "c2", 2023, 7⟩, ⟨"r1", "f1", "c1", 2022, 5⟩]
    [⟨"c1", "Sales", "income"⟩, ⟨"c2", "Rent", "expense"⟩] none
    (by decide)

/-! ## Claim C10 -/

/-- C10: invoking the fetch routine with an empty (falsy) file id sets the
error state to the message "File ID is required", sets `isLoading` to false,
performs no store query, and leaves the data state unchanged. -/
theorem fetchData_empty_fileId (store : Store) (st : HookState) :
    fetchData store "" st =
      ({ st with error := some "File ID is required", isLoading := false },
        []) := by
  simp [fetchData]

end Cashflow

/-! ## Order-theoretic facts about the code-unit comparator and sorting -/

theorem strLtB_asymm : ∀ x y : List Char, strLtB x y = true →
    strLtB y x = false := by
  intro x
  induction x with
  | nil =>
      intro y h
      cases y with
      | nil => simp [strLtB] at h
      | cons d ds => rfl
  | cons c cs ih =>
      intro y h
      cases y with
      | nil => simp [strLtB] at h
      | cons d ds =>
          unfold strLtB at h ⊢
          by_cases h1 : c.toNat < d.toNat
          · rw [if_neg (by omega : ¬ d.toNat < c.toNat), if_pos h1]
          · rw [if_neg h1] at h
            by_cases h2 : d.toNat < c.toNat
            · rw [if_pos h2] at h
              exact absurd h (by simp)
            · rw [if_neg h2] at h
              rw [if_neg h2, if_neg h1]
              exact ih ds h

theorem strLtB_negtrans : ∀ x y z : List Char, strLtB x y = false →
    strLtB y z = false → strLtB x z = false := by
  intro x
  induction x with
  | nil =>
      intro y z h1 h2
      cases y with
      | nil =>
          cases z with
          | nil => rfl
          | cons e es => exact h2
      | cons d ds => simp [strLtB] at h1
  | cons c cs ih =>
      intro y z h1 h2
      cases y with
      | nil =>
          cases z with
          | nil => rfl
          | cons e es => simp [strLtB] at h2
      | cons d ds =>
          unfold strLtB at h1
          by_cases ha : c.toNat < d.toNat
          · rw [if_pos ha] at h1
            exact absurd h1 (by simp)
          · rw [if_neg ha] at h1
            cases z with
            | nil => rfl
            | cons e es =>
                unfold strLtB at h2 ⊢
                by_cases hb : d.toNat < e.toNat
                · rw [if_pos hb] at h2
                  exact absurd h2 (by simp)
                · rw [if_neg hb] at h2
                  by_cases hc : d.toNat < c.toNat
                  · rw [if_neg (by omega : ¬ c.toNat < e.toNat),
                      if_pos (by omega : e.toNat < c.toNat)]
                  · rw [if_neg hc] at h1
                    by_cases hd : e.toNat < d.toNat
                    · rw [if_neg (by omega : ¬ c.toNat < e.toNat),
                        if_pos (by omega : e.toNat < c.toNat)]
                    · rw [if_neg hd] at h2
                      rw [if_neg (by omega : ¬ c.toNat < e.toNat),
                        if_neg (by omega : ¬ e.toNat < c.toNat)]
                      exact ih ds es h1 h2

theorem cmpStd_le_iff (a b : String) :
    cmpStd a b ≤ 0 ↔ strLtB b.data a.data = false := by
  unfold cmpStd
  by_cases h1 : strLtB a.data b.data = true
  · rw [if_pos h1, strLtB_asymm _ _ h1]
    constructor
    · intro _; rfl
    · intro _; omega
  · rw [if_neg h1]
    by_cases h2 : strLtB b.data a.data = true
    · rw [if_pos h2, h2]
      constructor
      · intro h; omega
      · intro h; cases h
    · rw [if_neg h2]
      have h2' : strLtB b.data a.data = false := by
        cases hx : strLtB b.data a.data with
        | true => exact absurd hx h2
        | false => rfl
      rw [h2']
      constructor
      · intro _; rfl
      · intro _; omega

theorem cmpStd_trans (a b c : String) (h1 : cmpStd a b ≤ 0)
    (h2 : cmpStd b c ≤ 0) : cmpStd a c ≤ 0 := by
  rw [cmpStd_le_iff] at h1 h2 ⊢
  exact strLtB_negtrans c.data b.data a.data h2 h1

theorem cmpStd_tot (a b : String) (h : a ≠ b) :
    cmpStd a b ≤ 0 ∨ cmpStd b a ≤ 0 := by
  rw [cmpStd_le_iff, cmpStd_le_iff]
  by_cases h1 : strLtB a.data b.data = true
  · exact Or.inl (strLtB_asymm _ _ h1)
  · refine Or.inr ?_
    cases hx : strLtB a.data b.data with
    | true => exact absurd hx h1
    | false => rfl

section PairwiseSort

variable {α : Type}

theorem mem_insertLe (le : α → α → Bool) (x : α) (l : List α) (z : α) :
    z ∈ insertLe le x l ↔ z = x ∨ z ∈ l := by
  rw [(perm_insertLe le x l).mem_iff]
  simp

theorem pairwise_insertLe (le : α → α → Bool)
    (htrans : ∀ a b c, le a b = true → le b c = true → le a c = true)
    (x : α) (l : List α)
    (htot : ∀ y ∈ l, le x y = true ∨ le y x = true)
    (hl : l.Pairwise (fun a b => le a b = true)) :
    (insertLe le x l).Pairwise (fun a b => le a b = true) := by
  induction l with
  | nil => simp [insertLe]
  | cons y l ih =>
      rw [List.pairwise_cons] at hl
      unfold insertLe
      by_cases h : le x y = true
      · rw [if_pos h]
        refine List.Pairwise.cons ?_ (List.Pairwise.cons hl.1 hl.2)
        intro z hz
        rcases List.mem_cons.mp hz with rfl | hz'
        · exact h
        · exact htrans x y z h (hl.1 z hz')
      · rw [if_neg h]
        refine List.Pairwise.cons ?_
          (ih (fun z hz => htot z (List.mem_cons_of_mem y hz)) hl.2)
        intro z hz
        rcases (mem_insertLe le x l z).mp hz with rfl | hz'
        · rcases htot y (List.mem_cons_self y l) with h1 | h2
          · exact absurd h1 h
          · exact h2
        · exact hl.1 z hz'

theorem pairwise_insSort (le : α → α → Bool)
    (htrans : ∀ a b c, le a b = true → le b c = true → le a c = true)
    (l : List α)
    (htot : l.Pairwise (fun a b => le a b = true ∨ le b a = true)) :
    (insSort le l).Pairwise (fun a b => le a b = true) := by
  induction l with
  | nil => simp [insSort]
  | cons x l ih =>
      rw [List.pairwise_cons] at htot
      unfold insSort
      refine pairwise_insertLe le htrans x (insSort le l) ?_ (ih htot.2)
      intro y hy
      exact htot.1 y ((perm_insSort le l).mem_iff.mp hy)

end PairwiseSort

namespace Tasks

theorem keys_jpush {κ : Type} [DecidableEq κ] {β : Type}
    (g : List (κ × List β)) (k : κ) (x : β) :
    (keys (jpush g k x)).Nodup ↔ (keys g).Nodup := by
  constructor
  · intro h
    unfold jpush at h
    cases hg : jget g k with
    | none =>
        rw [hg, keys_jset,
          if_neg ((jget_eq_none_iff g k).mp hg)] at h
        exact (List.nodup_append.mp h).1
    | some l =>
        rw [hg, keys_jset] at h
        by_cases hm : k ∈ keys g
        · rwa [if_pos hm] at h
        · rw [(jget_eq_none_iff g k).mpr hm] at hg
          cases hg
  · intro h
    unfold jpush
    cases hg : jget g k with
    | none => exact nodup_keys_jset k [x] h
    | some l => exact nodup_keys_jset k (l ++ [x]) h

theorem nodup_keys_groupTasks (tasks : List TaskWithState) :
    (keys (groupTasks tasks)).Nodup := by
  suffices h : ∀ g : List (String × List GroupedTask), (keys g).Nodup →
      (keys (tasks.foldl
        (fun g t =>
          jpush g (jsCategory t)
            { task_id := t.task_id
              task_name := t.task_name
              description := t.description
              task_type := t.task_type
              category := t.category
              seller_id := t.seller_id
              response := t.response
              isComplete := t.isComplete == some true }) g)).Nodup by
    exact h [] (by simp [keys])
  induction tasks with
  | nil => intro g hg; exact hg
  | cons t rest ih =>
      intro g hg
      exact ih _ ((keys_jpush g (jsCategory t) _).mpr hg)

/-! ## Claim C2 -/

/-- C2 counterexample: with no uploaded files and two responses for the
task, the first with an empty value and the second with a non-empty value,
the merged completion flag is false although a survey response for the task
with a non-empty value exists — the merge consults only the first matching
response. -/
theorem taskWithState_counterexample :
    (taskWithState []
      [⟨"t1", some ""⟩, ⟨"t1", some "x"⟩]
      ⟨"t1", "Task", "d", "survey", none, "b"⟩).isComplete = some false ∧
    ∃ r ∈ ([⟨"t1", some ""⟩, ⟨"t1", some "x"⟩] : List SurveyResponse),
      r.task_id = "t1" ∧ truthyStr r.value = true := by
  constructor
  · rfl
  · refine ⟨⟨"t1", some "x"⟩, by simp, rfl, by simp [truthyStr]⟩

/-- C2 amended: a merged task is complete iff some uploaded file with the
matching task id has status processed, or the first survey response in the
list whose task id matches the task has a non-empty value. -/
theorem taskWithState_isComplete_iff (files : List UploadedFile)
    (responses : List SurveyResponse) (t : Task) :
    (taskWithState files responses t).isComplete = some true ↔
      ((∃ f ∈ files, f.task_id = t.task_id ∧ f.status = "processed") ∨
        (∃ r, responses.find? (fun r => r.task_id == t.task_id) = some r ∧
          truthyStr r.value = true)) := by
  cases hfind : responses.find? (fun r => r.task_id == t.task_id) with
  | none =>
      simp [taskWithState, hfind, truthyStr, List.any_eq_true]
  | some r =>
      cases hv : r.value with
      | none => simp [taskWithState, hfind, hv, truthyStr, List.any_eq_true]
      | some s =>
          by_cases hs : s = ""
          · simp [taskWithState, hfind, hv, hs, truthyStr, List.any_eq_true]
          · simp [taskWithState, hfind, hv, hs, truthyStr, List.any_eq_true]

/-! ## Claim C9 -/

/-- C9: every bucket produced by the grouping has its completion flag true
iff every task inside it is complete — false as soon as one contained task
is incomplete, and vacuously true for a bucket without tasks. -/
theorem processTasksAndFiles_bucket_isComplete
    (localeCompare : String → String → Int) (tasks : List TaskWithState)
    (files : List UploadedFile) (responses : List SurveyResponse)
    (bkt : TaskCategory)
    (hb : bkt ∈ processTasksAndFiles localeCompare tasks files responses) :
    bkt.isComplete = true ↔ ∀ t ∈ bkt.tasks, t.isComplete = true := by
  unfold processTasksAndFiles at hb
  rw [mem_insSort] at hb
  obtain ⟨p, hp, rfl⟩ := List.mem_map.mp hb
  simpa using List.all_eq_true (l := p.2) (p := fun t => t.isComplete)

/-- Witness for C9. -/
theorem processTasksAndFiles_bucket_isComplete_witness :
    (⟨"Uncategorized",
        [⟨"t1", "Task", "d", "survey", none, "b", none, true⟩], true⟩ :
        TaskCategory) ∈
      processTasksAndFiles (fun _ _ => 0)
        [⟨"t1", "Task", "d", "survey", none, "b", none, some true⟩] [] [] ∧
    ((⟨"Uncategorized",
        [⟨"t1", "Task", "d", "survey", none, "b", none, true⟩], true⟩ :
        TaskCategory).isComplete = true ↔
      ∀ t ∈ (⟨"Uncategorized",
        [⟨"t1", "Task", "d", "survey", none, "b", none, true⟩], true⟩ :
        TaskCategory).tasks, t.isComplete = true) :=
  ⟨by decide,
    processTasksAndFiles_bucket_isComplete (fun _ _ => 0)
      [⟨"t1", "Task", "d", "survey", none, "b", none, some true⟩] [] []
      ⟨"Uncategorized",
        [⟨"t1", "Task", "d", "survey", none, "b", none, true⟩], true⟩
      (by decide)⟩

/-! ## Claim C8 -/

/-- C8: for every consistent locale-aware comparison, the buckets returned
by the grouping are sorted: along the output, a later bucket is either the
"Uncategorized" bucket or compares no earlier under the comparison (with no
"Uncategorized" bucket before it), and a bucket named exactly
"Uncategorized", wherever it occurs, is the last element. -/
theorem processTasksAndFiles_sorted (localeCompare : String → String → Int)
    (hctrans : ∀ a b c : String, localeCompare a b ≤ 0 →
      localeCompare b c ≤ 0 → localeCompare a c ≤ 0)
    (hctot : ∀ a b : String, a ≠ b →
      localeCompare a b ≤ 0 ∨ localeCompare b a ≤ 0)
    (tasks : List TaskWithState) (files : List UploadedFile)
    (responses : List SurveyResponse) :
    (processTasksAndFiles localeCompare tasks files responses).Pairwise
      (fun a b => b.name = "Uncategorized" ∨
        (a.name ≠ "Uncategorized" ∧ localeCompare a.name b.name ≤ 0)) ∧
    (∀ l₁ bkt l₂,
      processTasksAndFiles localeCompare tasks files responses =
        l₁ ++ bkt :: l₂ →
      bkt.name = "Uncategorized" → l₂ = []) := by
  have htrans : ∀ a b c : TaskCategory,
      catLe localeCompare a b = true → catLe localeCompare b c = true →
        catLe localeCompare a c = true := by
    intro a b c hab hbc
    simp only [catLe, catComparator, decide_eq_true_eq] at hab hbc ⊢
    by_cases ha : a.name = "Uncategorized"
    · rw [if_pos ha] at hab
      omega
    · rw [if_neg ha] at hab ⊢
      by_cases hb : b.name = "Uncategorized"
      · rw [if_pos hb] at hbc
        omega
      · rw [if_neg hb] at hab hbc
        by_cases hc : c.name = "Uncategorized"
        · rw [if_pos hc]
          omega
        · rw [if_neg hc] at hbc ⊢
          exact hctrans _ _ _ hab hbc
  have htot : ∀ a b : TaskCategory, a.name ≠ b.name →
      catLe localeCompare a b = true ∨ catLe localeCompare b a = true := by
    intro a b hne
    simp only [catLe, catComparator, decide_eq_true_eq]
    by_cases ha : a.name = "Uncategorized"
    · have hb : ¬ (b.name = "Uncategorized") := fun hb => hne (ha.trans hb.symm)
      right
      rw [if_neg hb, if_pos ha]
      omega
    · by_cases hb : b.name = "Uncategorized"
      · left
        rw [if_neg ha, if_pos hb]
        omega
      · rcases hctot a.name b.name hne with h | h
        · left
          rw [if_neg ha, if_neg hb]
          exact h
        · right
          rw [if_neg hb, if_neg ha]
          exact h
  have hnames : (((groupTasks tasks).map fun p =>
      ({ name := p.1, tasks := p.2,
         isComplete := p.2.all fun t => t.isComplete } : TaskCategory)).map
        (fun b => b.name)).Nodup := by
    rw [List.map_map]
    exact nodup_keys_groupTasks tasks
  have harr_tot : ((groupTasks tasks).map fun p =>
      ({ name := p.1, tasks := p.2,
         isComplete := p.2.all fun t => t.isComplete } : TaskCategory)).Pairwise
      (fun a b => catLe localeCompare a b = true ∨
        catLe localeCompare b a = true) := by
    have hp := List.pairwise_map.mp hnames
    exact hp.imp (fun h => htot _ _ h)
  have hsorted : (insSort (catLe localeCompare)
      ((groupTasks tasks).map fun p =>
        ({ name := p.1, tasks := p.2,
           isComplete := p.2.all fun t => t.isComplete } : TaskCategory))).Pairwise
      (fun a b => catLe localeCompare a b = true) :=
    pairwise_insSort _ htrans _ harr_tot
  have hs0 : (processTasksAndFiles localeCompare tasks files
      responses).Pairwise (fun a b => catLe localeCompare a b = true) :=
    hsorted
  constructor
  · refine hs0.imp ?_
    intro a b hab
    simp only [catLe, catComparator, decide_eq_true_eq] at hab
    by_cases ha : a.name = "Uncategorized"
    · rw [if_pos ha] at hab
      omega
    · by_cases hb : b.name = "Uncategorized"
      · exact Or.inl hb
      · rw [if_neg ha, if_neg hb] at hab
        exact Or.inr ⟨ha, hab⟩
  · intro l₁ bkt l₂ heq hU
    cases l₂ with
    | nil => rfl
    | cons c l₂' =>
        exfalso
        rw [heq] at hs0
        have h1 := (List.pairwise_append.mp hs0).2.1
        have hrel : catLe localeCompare bkt c = true :=
          (List.pairwise_cons.mp h1).1 c (List.mem_cons_self c l₂')
        simp only [catLe, catComparator, decide_eq_true_eq, if_pos hU] at hrel
        omega

/-- Witness for C8 with the concrete code-unit comparator and three tasks:
two named categories and an uncategorised one. -/
theorem processTasksAndFiles_sorted_witness :
    (processTasksAndFiles cmpStd
      [⟨"t1", "License", "d", "upload", some "Legal", "b", none, some true⟩,
        ⟨"t2", "Cash Flow", "d", "upload", some "Financial", "b", none, none⟩,
        ⟨"t3", "Handbook", "d", "upload", none, "b", none, none⟩] [] []).Pairwise
      (fun a b => b.name = "Uncategorized" ∨
        (a.name ≠ "Uncategorized" ∧ cmpStd a.name b.name ≤ 0)) ∧
    (∀ l₁ bkt l₂,
      processTasksAndFiles cmpStd
        [⟨"t1", "License", "d", "upload", some "Legal", "b", none, some true⟩,
          ⟨"t2", "Cash Flow", "d", "upload", some "Financial", "b", none, none⟩,
          ⟨"t3", "Handbook", "d", "upload", none, "b", none, none⟩] [] [] =
        l₁ ++ bkt :: l₂ →
      bkt.name = "Uncategorized" → l₂ = []) :=
  processTasksAndFiles_sorted cmpStd
    (fun a b c => cmpStd_trans a b c)
    (fun a b h => cmpStd_tot a b h)
    [⟨"t1", "License", "d", "upload", some "Legal", "b", none, some true⟩,
      ⟨"t2", "Cash Flow", "d", "upload", some "Financial", "b", none, none⟩,
      ⟨"t3", "Handbook", "d", "upload", none, "b", none, none⟩] [] []

end Tasks

end DecisionPoint
